/-
Verification development for the provider resilience and streaming layer of
pally-mcp-server. The definitions below are a shallow embedding of
src/providers/openai_compatible.py and src/providers/openrouter.py.

Modelling conventions:
- Python JSON values are the inductive type Json below; numbers are Int
  (the claims under study never involve fractional JSON numbers).
- Python json.loads / ast.literal_eval are stdlib functions, not repository
  code; they are modelled as parse oracles passed explicitly to the
  functions that use them.
- Python str.strip / str.lstrip / str.lower / str.upper / startswith and
  substring membership are modelled by the py* / str* helpers below,
  written over toList so they evaluate by rfl.
- asyncio / wall-clock time is modelled with integers (Int seconds): the
  deadline logic only subtracts and compares times, so integer time keeps
  every comparison of the source intact; each streamed line carries the
  wait (delay) elapsed before it is yielded.
-/
import Mathlib

/-- JSON/Python-literal values as produced by json.loads or ast.literal_eval. -/
inductive Json where
  | null
  | bool (b : Bool)
  | num (n : Int)
  | str (s : String)
  | arr (items : List Json)
  | obj (fields : List (String × Json))

/-- Lookup of a key in a JSON object field list (Python dict access). -/
def jsonLookup : List (String × Json) → String → Option Json
  | [], _ => none
  | (k, v) :: rest, key => if k = key then some v else jsonLookup rest key

/-- `j.get k` for a Json value: Python `d.get(k)` on dicts, none otherwise. -/
def Json.get : Json → String → Option Json
  | .obj fields, key => jsonLookup fields key
  | _, _ => none

/-- Python `d.get(k)` collapsing a stored None to absence: Python code cannot
distinguish a missing key from a key stored with value None via `.get`. -/
def pyGet (fields : List (String × Json)) (k : String) : Option Json :=
  match jsonLookup fields k with
  | some .null => none
  | v => v

/-- Python truthiness of a JSON value. -/
def Json.truthy : Json → Bool
  | .null => false
  | .bool b => b
  | .num n => n != 0
  | .str s => s != ""
  | .arr items => !items.isEmpty
  | .obj fields => !fields.isEmpty

/-- Python truthiness of `d.get(k)` (missing key is falsy None). -/
def getTruthy (fields : List (String × Json)) (k : String) : Bool :=
  match jsonLookup fields k with
  | some v => v.truthy
  | none => false

/-- Is the JSON value a dict (Python `isinstance(x, dict)`). -/
def Json.isObj : Json → Bool
  | .obj _ => true
  | _ => false

/-- Python equality of a possibly-absent value with a string literal
(`x == "lit"`: true only when x is that string). -/
def jsonEqStr (v : Option Json) (s : String) : Bool :=
  match v with
  | some (.str t) => t = s
  | _ => false

/- ---------- string helpers (models of the Python string methods used) ---------- -/

def strLower (s : String) : String := String.mk (s.toList.map Char.toLower)

def strUpper (s : String) : String := String.mk (s.toList.map Char.toUpper)

/-- Python str.strip(). -/
def pyStrip (s : String) : String :=
  String.mk (((s.toList.dropWhile Char.isWhitespace).reverse.dropWhile Char.isWhitespace).reverse)

/-- Python str.lstrip(). -/
def pyLstrip (s : String) : String :=
  String.mk (s.toList.dropWhile Char.isWhitespace)

/-- Python str.startswith. -/
def strStarts (s p : String) : Bool := p.toList.isPrefixOf s.toList

/-- All suffixes of a list, longest first. -/
def listTails {α : Type} : List α → List (List α)
  | [] => [[]]
  | x :: xs => (x :: xs) :: listTails xs

/-- Python substring membership `p in s`. -/
def strContainsSub (s p : String) : Bool :=
  (listTails s.toList).any (fun t => p.toList.isPrefixOf t)

/-- Python `int(str)` (whitespace-tolerant, sign-tolerant); none when unparsable. -/
def pyIntOfString (s : String) : Option Int := (pyStrip s).toInt?

/- ---------- usage normalization: OpenAICompatibleProvider._extract_usage_dict ---------- -/

/-- The nested `_to_int` helper: `int(value or 0)` with TypeError/ValueError
collapsed to 0 by the enclosing try/except. -/
def to_int : Json → Int
  | .null => 0
  | .bool b => if b then 1 else 0
  | .num n => n
  | .str s => if s = "" then 0 else (pyIntOfString s).getD 0
  | .arr _ => 0
  | .obj _ => 0

/-- The normalized usage block `{input_tokens, output_tokens, total_tokens}`. -/
structure UsageDict where
  input_tokens : Int
  output_tokens : Int
  total_tokens : Int
deriving DecidableEq

/-- `OpenAICompatibleProvider._extract_usage_dict`: normalize an
OpenRouter/OpenAI-style usage block into UsageDict, none for non-dicts and
for the all-zero snapshot. -/
def extract_usage_dict (usage : Json) : Option UsageDict :=
  match usage with
  | .obj fields =>
    let prompt_tokens := pyGet fields "prompt_tokens"
    let completion_tokens := pyGet fields "completion_tokens"
    let total_tokens := pyGet fields "total_tokens"
    let (prompt_tokens, completion_tokens, total_tokens) :=
      match prompt_tokens, completion_tokens, total_tokens with
      | none, none, none =>
        (pyGet fields "input_tokens", pyGet fields "output_tokens", pyGet fields "total_tokens")
      | p, c, t => (p, c, t)
    let input_tokens := to_int (prompt_tokens.getD .null)
    let output_tokens := to_int (completion_tokens.getD .null)
    let total_tokens_value :=
      match total_tokens with
      | none => input_tokens + output_tokens
      | some t => to_int t
    if input_tokens = 0 ∧ output_tokens = 0 ∧ total_tokens_value = 0 then none
    else some ⟨input_tokens, output_tokens, total_tokens_value⟩
  | _ => none

/- ---------- SSE line dispatch shared by both streaming loops ---------- -/

/-- The per-line dispatch both streaming loops perform on each SSE line:
empty lines, all-whitespace lines, comment lines (leading `:` after strip)
and non-`data:` lines yield none; otherwise the payload after `data:`
(left-stripped) is returned. -/
def line_data_payload (line : String) : Option String :=
  if line = "" then none
  else
    let stripped := pyStrip line
    if stripped = "" then none
    else if strStarts stripped ":" then none
    else if !strStarts stripped "data:" then none
    else some (pyLstrip (String.mk (stripped.toList.drop 5)))

/-- Terminal failures of a streaming attempt (RuntimeError messages in the
source, represented structurally). -/
inductive StreamError where
  | invalidJson (data : String)
  | inBand (err : Json)
  | failedEvent (eventType : String) (event : Json)

/-- Loop result: final accumulator state plus whether the loop exited via
break (`data: [DONE]`, or `response.completed` for the responses shape). -/
structure LoopOut (σ : Type) where
  state : σ
  done : Bool

/-- Concatenation of a list of strings (Python str.join with empty separator). -/
def concatAll : List String → String
  | [] => ""
  | s :: rest => s ++ concatAll rest

/- ---------- chat-completions streaming:
   OpenAICompatibleProvider._generate_openrouter_chat_completions_streaming ---------- -/

/-- Metadata captured from chat-completions chunks (last write wins).
The constant endpoint/streaming entries of the source dict are omitted. -/
structure ChatMeta where
  id : Option Json := none
  created : Option Json := none
  model : Option Json := none
  finish_reason : Option Json := none

/-- Accumulator of the chat-completions streaming loop. -/
structure ChatState where
  content_parts : List String := []
  usage : Option UsageDict := none
  meta : ChatMeta := {}

/-- One element of `payload["choices"]`: capture finish_reason into metadata
and append a non-empty `delta.content` string token. -/
def process_chat_choice (st : ChatState) (choice : Json) : ChatState :=
  match choice with
  | .obj cf =>
    let st :=
      match pyGet cf "finish_reason" with
      | some fr => { st with meta := { st.meta with finish_reason := some fr } }
      | none => st
    match jsonLookup cf "delta" with
    | some (.obj df) =>
      match jsonLookup df "content" with
      | some (.str token) =>
        if token = "" then st
        else { st with content_parts := st.content_parts ++ [token] }
      | _ => st
    | _ => st
  | _ => st

def process_chat_choices (st : ChatState) : List Json → ChatState
  | [] => st
  | c :: rest => process_chat_choices (process_chat_choice st c) rest

/-- The id/created/model/usage/choices handling of one parsed chunk
(source lines 282-306). -/
def process_chat_payload_fields (st : ChatState) (pf : List (String × Json)) : ChatState :=
  let st :=
    if getTruthy pf "id" then
      { st with meta := { st.meta with id := jsonLookup pf "id" } }
    else st
  let st :=
    match pyGet pf "created" with
    | some v => { st with meta := { st.meta with created := some v } }
    | none => st
  let st :=
    if getTruthy pf "model" then
      { st with meta := { st.meta with model := jsonLookup pf "model" } }
    else st
  let st :=
    match jsonLookup pf "usage" with
    | some u =>
      match extract_usage_dict u with
      | some extracted => { st with usage := some extracted }
      | none => st
    | none => st
  match jsonLookup pf "choices" with
  | some (.arr choices) => process_chat_choices st choices
  | _ => st

/-- One parsed chat-completions chunk: raise on a truthy `error` field,
otherwise fold the chunk into the accumulator. Non-dict payloads are skipped. -/
def process_chat_payload (st : ChatState) (payload : Json) : Except StreamError ChatState :=
  match payload with
  | .obj pf =>
    if getTruthy pf "error" then .error (.inBand ((jsonLookup pf "error").getD .null))
    else .ok (process_chat_payload_fields st pf)
  | _ => .ok st

/-- The chat-completions streaming loop over SSE lines (source lines 255-306).
`parse` models json.loads. -/
def chat_stream_go (parse : String → Option Json) :
    List String → ChatState → Except StreamError (LoopOut ChatState)
  | [], st => .ok ⟨st, false⟩
  | line :: rest, st =>
    match line_data_payload line with
    | none => chat_stream_go parse rest st
    | some data =>
      if data = "[DONE]" then .ok ⟨st, true⟩
      else
        match parse data with
        | none => .error (.invalidJson data)
        | some payload =>
          match process_chat_payload st payload with
          | .error e => .error e
          | .ok st2 => chat_stream_go parse rest st2

/-- The normalized response a completed call returns (content, usage, model
name, endpoint metadata). -/
structure ModelResponseOf (μ : Type) where
  content : String
  usage : Option UsageDict
  model_name : String
  metadata : μ

/-- `_generate_openrouter_chat_completions_streaming`: run the SSE loop and
assemble the ModelResponse whose content joins the delta tokens. -/
def generate_openrouter_chat_completions_streaming (parse : String → Option Json)
    (model_name : String) (lines : List String) :
    Except StreamError (ModelResponseOf ChatMeta) :=
  match chat_stream_go parse lines {} with
  | .error e => .error e
  | .ok out => .ok ⟨concatAll out.state.content_parts, out.state.usage, model_name, out.state.meta⟩

/- spec-side definition for the C1 refinement: the concatenation, in arrival
order, of the choices[].delta.content strings of every successfully parsed
data payload, stopping at [DONE], with blank and comment lines contributing
nothing (follows the claim wording). -/

/-- The `choices[].delta.content` strings of one parsed chunk, in order
(including empty strings, which contribute nothing to a concatenation). -/
def chat_payload_delta_strings (payload : Json) : List String :=
  match payload with
  | .obj pf =>
    match jsonLookup pf "choices" with
    | some (.arr choices) =>
      choices.foldr
        (fun c acc =>
          (match c with
           | .obj cf =>
             match jsonLookup cf "delta" with
             | some (.obj df) =>
               match jsonLookup df "content" with
               | some (.str s) => [s]
               | _ => []
             | _ => []
           | _ => []) ++ acc)
        []
    | _ => []
  | _ => []

/-- Spec-side content of a chat-completions stream (claim C1 wording). -/
def chat_delta_concat_spec (parse : String → Option Json) : List String → String
  | [] => ""
  | line :: rest =>
    match line_data_payload line with
    | none => chat_delta_concat_spec parse rest
    | some data =>
      if data = "[DONE]" then ""
      else
        match parse data with
        | none => chat_delta_concat_spec parse rest
        | some payload =>
          concatAll (chat_payload_delta_strings payload) ++ chat_delta_concat_spec parse rest

/- ---------- responses-shape streaming:
   OpenAICompatibleProvider._generate_openrouter_responses_streaming ---------- -/

/-- `_extract_output_text_from_responses_payload`: walk `output[].content[]`
entries whose type is output_text and join their text fields. -/
def extract_output_text_from_responses_payload (response_payload : Json) : String :=
  match response_payload.get "output" with
  | some (.arr output) =>
    concatAll
      (output.foldr
        (fun item acc =>
          (match item with
           | .obj itf =>
             match jsonLookup itf "content" with
             | some (.arr content) =>
               content.foldr
                 (fun content_item parts =>
                   (match content_item with
                    | .obj cif =>
                      if jsonEqStr (jsonLookup cif "type") "output_text" then
                        match jsonLookup cif "text" with
                        | some (.str text) => [text]
                        | _ => []
                      else []
                    | _ => []) ++ parts)
                 []
             | _ => []
           | _ => []) ++ acc)
        [])
  | _ => ""

/-- Metadata captured from responses-shape events (last write wins). -/
structure RespMeta where
  last_event_type : Option String := none
  id : Option Json := none
  created : Option Json := none
  model : Option Json := none

/-- Accumulator of the responses streaming loop: authoritative completed
payload, delta fallback parts, usage and metadata. -/
structure RespState where
  completed_response : Option Json := none
  output_parts : List String := []
  usage : Option UsageDict := none
  meta : RespMeta := {}

/-- The metadata/usage updates taken from a nested dict `response` object
(source lines 403-413). -/
def process_resp_response_obj (st : RespState) (response_obj : Json) : RespState :=
  match response_obj with
  | .obj rf =>
    let st :=
      if getTruthy rf "id" then
        { st with meta := { st.meta with id := jsonLookup rf "id" } }
      else st
    let st :=
      match pyGet rf "created_at" with
      | some v => { st with meta := { st.meta with created := some v } }
      | none => st
    let st :=
      if getTruthy rf "model" then
        { st with meta := { st.meta with model := jsonLookup rf "model" } }
      else st
    match jsonLookup rf "usage" with
    | some u =>
      match extract_usage_dict u with
      | some extracted => { st with usage := some extracted }
      | none => st
    | none => st
  | _ => st

/-- One parsed responses-shape event (source lines 393-426): error field
raises; the event type is recorded; a dict `response` updates metadata and
usage; `response.output_text.delta` appends to the fallback accumulator;
`response.completed` with a dict response captures it and breaks;
`response.failed` / `response.error` raise. Returns the updated state and
whether the loop breaks. -/
def process_resp_event (st : RespState) (event : Json) : Except StreamError (LoopOut RespState) :=
  match event with
  | .obj ef =>
    if getTruthy ef "error" then .error (.inBand ((jsonLookup ef "error").getD .null))
    else
      let event_type := jsonLookup ef "type"
      let st :=
        match event_type with
        | some (.str t) => { st with meta := { st.meta with last_event_type := some t } }
        | _ => st
      let response_obj := jsonLookup ef "response"
      let st :=
        match response_obj with
        | some r => process_resp_response_obj st r
        | none => st
      let st :=
        if jsonEqStr event_type "response.output_text.delta" then
          match jsonLookup ef "delta" with
          | some (.str delta) =>
            if delta = "" then st
            else { st with output_parts := st.output_parts ++ [delta] }
          | _ => st
        else st
      if jsonEqStr event_type "response.completed" ∧ (response_obj.getD .null).isObj then
        .ok ⟨{ st with completed_response := response_obj }, true⟩
      else if jsonEqStr event_type "response.failed" then
        .error (.failedEvent "response.failed" event)
      else if jsonEqStr event_type "response.error" then
        .error (.failedEvent "response.error" event)
      else .ok ⟨st, false⟩
  | _ => .ok ⟨st, false⟩

/-- The responses streaming loop over SSE lines (source lines 368-426). -/
def resp_stream_go (parse : String → Option Json) :
    List String → RespState → Except StreamError (LoopOut RespState)
  | [], st => .ok ⟨st, false⟩
  | line :: rest, st =>
    match line_data_payload line with
    | none => resp_stream_go parse rest st
    | some data =>
      if data = "[DONE]" then .ok ⟨st, true⟩
      else
        match parse data with
        | none => .error (.invalidJson data)
        | some event =>
          match process_resp_event st event with
          | .error e => .error e
          | .ok ⟨st2, true⟩ => .ok ⟨st2, true⟩
          | .ok ⟨st2, false⟩ => resp_stream_go parse rest st2

/-- The content assembly after the responses loop (source lines 428-432):
authoritative completed output when non-empty, else the joined deltas. -/
def resp_assemble_content (st : RespState) : String :=
  let content :=
    match st.completed_response with
    | some r => extract_output_text_from_responses_payload r
    | none => ""
  if content = "" then concatAll st.output_parts else content

/-- `_generate_openrouter_responses_streaming`: run the SSE loop and
assemble the ModelResponse. -/
def generate_openrouter_responses_streaming (parse : String → Option Json)
    (model_name : String) (lines : List String) :
    Except StreamError (ModelResponseOf RespMeta) :=
  match resp_stream_go parse lines {} with
  | .error e => .error e
  | .ok out => .ok ⟨resp_assemble_content out.state, out.state.usage, model_name, out.state.meta⟩

/-- Spec-side (claim C2 wording) extraction: the texts of `output[].content[]`
entries whose type is output_text, concatenated. -/
def responses_output_text_spec (response_payload : Json) : String :=
  match response_payload.get "output" with
  | some (.arr output) =>
    concatAll
      (output.map
        (fun item =>
          match item.get "content" with
          | some (.arr content) =>
            concatAll
              (content.map
                (fun ci =>
                  if jsonEqStr (ci.get "type") "output_text" then
                    match ci.get "text" with
                    | some (.str text) => text
                    | _ => ""
                  else ""))
          | _ => ""))
  | _ => ""

/- ---------- first-activity wait:
   OpenAICompatibleProvider._wait_for_openrouter_first_activity_line ---------- -/

/-- The two TimeoutError messages of the wait loop; both name the configured
timeout value (it appears twice in each f-string). -/
inductive FirstActivityErrKind where
  | timedOut
  | streamEnded
deriving DecidableEq

/-- A first-activity timeout failure carrying the configured timeout value
that the raised message names. -/
structure FirstActivityErr where
  timeout_sec : Int
  kind : FirstActivityErrKind
deriving DecidableEq

/-- Does a line qualify as first activity (source lines 167-179): non-blank
after strip, and either a `data:` line or an OpenRouter keep-alive comment
(leading `:` with OPENROUTER and PROCESSING in its upper-cased text). -/
def is_first_activity_line (line : String) : Bool :=
  if line = "" then false
  else
    let stripped := pyStrip line
    if stripped = "" then false
    else if strStarts stripped "data:" then true
    else
      strStarts stripped ":" &&
        strContainsSub (strUpper stripped) "OPENROUTER" &&
        strContainsSub (strUpper stripped) "PROCESSING"

/-- The wait loop with `remaining` budget left until the deadline. Each
stream event is a pair (wait, line): the line is yielded `wait` seconds
after the previous pull. Pre-check `remaining <= 0` raises; pulling past
the end of the stream raises (StopAsyncIteration); a pull whose wait
exceeds the remaining budget raises (asyncio.TimeoutError). -/
def wait_first_activity_go (timeout_sec : Int) :
    Int → List (Int × String) → Except FirstActivityErr String
  | remaining, [] =>
    if remaining ≤ 0 then .error ⟨timeout_sec, .timedOut⟩
    else .error ⟨timeout_sec, .streamEnded⟩
  | remaining, (w, line) :: rest =>
    if remaining ≤ 0 then .error ⟨timeout_sec, .timedOut⟩
    else if remaining < w then .error ⟨timeout_sec, .timedOut⟩
    else if is_first_activity_line line then .ok line
    else wait_first_activity_go timeout_sec (remaining - w) rest

/-- `_wait_for_openrouter_first_activity_line`: wait up to timeout_sec for
the first qualifying SSE activity line. -/
def wait_for_openrouter_first_activity_line (timeout_sec : Int)
    (events : List (Int × String)) : Except FirstActivityErr String :=
  wait_first_activity_go timeout_sec timeout_sec events

/- ---------- error retryability: OpenAICompatibleProvider._is_error_retryable ---------- -/

/-- The substring re.search(r"\x7b.*\x7d") extracts from the error text:
from the first opening brace to the last closing brace, when the closing
brace follows the opening one. (The source regex additionally never spans
newline characters; the claims under study involve single-line messages.) -/
def extractBraced (s : String) : Option String :=
  let cs := s.toList
  match cs.findIdx? (· = '{'), (cs.reverse.findIdx? (· = '}')) with
  | some i, some rj =>
    let j := cs.length - 1 - rj
    if i < j then some (String.mk ((cs.drop i).take (j - i + 1))) else none
  | _, _ => none

/-- A parse oracle standing for a Python stdlib parser that yields a dict:
ast.literal_eval or json.loads restricted to dict results. (Non-dict parse
results make the source fall through with no structured type/code; exotic
non-dict shapes that would raise in Python are outside this model.) -/
def ParseDictOracle : Type := String → Option (List (String × Json))

/-- Extract `error.type` and `error.code` from a parsed error payload dict
(source lines 1186-1189); a non-dict `error` value or a missing key leaves
them absent, as does the AttributeError fallback path. -/
def errorTypeCode (d : List (String × Json)) : Option Json × Option Json :=
  match jsonLookup d "error" with
  | some (.obj info) => (pyGet info "type", pyGet info "code")
  | _ => (none, none)

/-- The structured `{error: {type, code}}` extraction of `_is_error_retryable`
(source lines 1166-1201): brace-extract from the raw error text, parse as a
Python literal first (tolerant of single quotes), then fall back to JSON
parsing after replacing single quotes with double quotes. -/
def structured_error_type_code (parseLiteral parseJsonStrict : ParseDictOracle)
    (error_text : String) : Option Json × Option Json :=
  match extractBraced error_text with
  | none => (none, none)
  | some braced =>
    match parseLiteral braced with
    | some d => errorTypeCode d
    | none =>
      match parseJsonStrict (braced.replace "'" "\"") with
      | some d => errorTypeCode d
      | none => (none, none)

/-- The retryable-indicator substrings checked for non-429 errors. -/
def retryableIndicators : List String :=
  ["timeout", "connection", "network", "temporary", "unavailable", "retry",
   "408", "500", "502", "503", "504", "ssl", "handshake"]

/-- `_is_error_retryable`: decide whether an error (given as its str() text)
should be retried. -/
def is_error_retryable (parseLiteral parseJsonStrict : ParseDictOracle)
    (error_text : String) : Bool :=
  let error_str := strLower error_text
  if strContainsSub error_str "429" then
    let (error_type, error_code) :=
      structured_error_type_code parseLiteral parseJsonStrict error_text
    if jsonEqStr error_type "tokens" then false
    else if jsonEqStr error_code "invalid_request_error" ∨
        jsonEqStr error_code "context_length_exceeded" then false
    else true
  else
    retryableIndicators.any (fun indicator => strContainsSub error_str indicator)

/-- Spec-side classifier (claim C4 wording, first match wins): a 429 error is
non-retryable exactly when the structured payload has type tokens or code in
the two permanent-failure codes; a non-429 error is retryable exactly when
its lowercased text contains one of the indicator substrings. -/
def retryable_spec (parseLiteral parseJsonStrict : ParseDictOracle)
    (error_text : String) : Bool :=
  if strContainsSub (strLower error_text) "429" then
    let tc := structured_error_type_code parseLiteral parseJsonStrict error_text
    !(jsonEqStr tc.1 "tokens" || jsonEqStr tc.2 "invalid_request_error" ||
      jsonEqStr tc.2 "context_length_exceeded")
  else
    retryableIndicators.any (fun indicator => strContainsSub (strLower error_text) indicator)

/- ---------- retry runner and its call sites ---------- -/

/-- The retry constants of `OpenAICompatibleProvider.generate_content`
(source lines 1030-1031). -/
def generate_content_max_retries : Nat := 4

def generate_content_retry_delays : List Int := [1, 3, 5, 8]

/-- The retry constants of `_generate_with_responses_endpoint`
(source lines 834-835). -/
def responses_endpoint_max_retries : Nat := 4

def responses_endpoint_retry_delays : List Int := [1, 3, 5, 8]

/-- Outcome of the retry runner: success, immediate abort on a non-retryable
failure, or exhaustion after the final attempt. Each carries the number of
attempts actually made and the sleeps performed between attempts. -/
inductive RetryOutcome (ε α : Type) where
  | ok (value : α) (attemptsMade : Nat) (sleeps : List Int)
  | aborted (err : ε) (attemptsMade : Nat) (sleeps : List Int)
  | exhausted (lastErr : ε) (attemptsMade : Nat) (sleeps : List Int)
deriving DecidableEq

/-- Modelled from the spec: the retry runner `_run_with_retries` (defined in
providers/base.py, which is not under src/). Attempt 1 runs immediately; on
a retryable failure before the last attempt it sleeps `delays[i]` and runs
attempt i+2; a non-retryable failure aborts immediately; when the last
attempt fails it raises carrying the last error. `fuel` is the number of
attempts still allowed after the current one. -/
def run_with_retries_go {ε α : Type} (retryable : ε → Bool) (op : Nat → Except ε α)
    (delays : List Int) : Nat → Nat → List Int → RetryOutcome ε α
  | attempt, fuel, sleeps =>
    match op attempt with
    | .ok v => .ok v attempt sleeps
    | .error e =>
      if retryable e then
        match fuel with
        | 0 => .exhausted e attempt sleeps
        | f + 1 =>
          run_with_retries_go retryable op delays (attempt + 1) f
            (sleeps ++ [delays.getD (attempt - 1) 0])
      else .aborted e attempt sleeps

/-- Modelled from the spec: `_run_with_retries(operation, max_attempts, delays)`. -/
def run_with_retries {ε α : Type} (retryable : ε → Bool) (op : Nat → Except ε α)
    (max_attempts : Nat) (delays : List Int) : RetryOutcome ε α :=
  run_with_retries_go retryable op delays 1 (max_attempts - 1) []

/-- The aggregated failure the call sites raise: a RuntimeError naming the
attempt count actually made and the last underlying error
(source lines 1070-1077 and 891-895). -/
structure AggregatedFailure (ε : Type) where
  attempts : Nat
  lastError : ε
deriving DecidableEq

/-- The `generate_content` retry shell around one attempt operation: run with
max_retries=4 and delays [1,3,5,8]; on any failure, wrap into the aggregated
RuntimeError naming max(attempt_counter, 1) attempts and the last error. -/
def generate_content_retry_shell {ε α : Type} (retryable : ε → Bool)
    (op : Nat → Except ε α) : Except (AggregatedFailure ε) α :=
  match run_with_retries retryable op generate_content_max_retries generate_content_retry_delays with
  | .ok v _ _ => .ok v
  | .aborted e attempts _ => .error ⟨max attempts 1, e⟩
  | .exhausted e attempts _ => .error ⟨max attempts 1, e⟩

/- ---------- allow-list enforcement:
   OpenAICompatibleProvider._ensure_model_allowed ---------- -/

/-- The hard failure raised on an allow-list violation: names the requested
model and the sorted allow-list. -/
structure AllowListViolation where
  requested_name : String
  sorted_allowed : List String
deriving DecidableEq

/-- Insert into a sorted list of strings (Python code-point order). -/
def insertSortedStr (x : String) : List String → List String
  | [] => [x]
  | y :: ys => if x.toList ≤ y.toList then x :: y :: ys else y :: insertSortedStr x ys

/-- Python `sorted` on strings. -/
def sortedStrings (l : List String) : List String := l.foldr insertSortedStr []

/-- The allow-list and the alias-resolution memo cache
(`self.allowed_models` and `self._allowed_alias_cache`). The allow-list is
kept as a list standing for a Python set (its order is the iteration order). -/
structure AllowState where
  allowed_models : List String
  alias_cache : List (String × String)

def cacheLookup : List (String × String) → String → Option String
  | [], _ => none
  | (k, v) :: rest, key => if k = key then some v else cacheLookup rest key

def cacheSet (cache : List (String × String)) (k v : String) : List (String × String) :=
  (cache.filter (fun p => p.1 ≠ k)) ++ [(k, v)]

/-- The alias-resolution loop over the allow-list entries (source lines
470-490): use the memoized resolution if present, else resolve (an
exception or empty result skips the entry, a successful resolution is
memoized); stop at the first entry whose lowercased resolution equals the
lowercased canonical name. `resolve` models `self._resolve_model_name`,
with none standing for a raised exception. -/
def allow_alias_loop (resolve : String → Option String) (canonical : String) :
    List String → List (String × String) → Bool × List (String × String)
  | [], cache => (false, cache)
  | entry :: rest, cache =>
    match cacheLookup cache entry with
    | some normalized_resolved =>
      if normalized_resolved = canonical then (true, cache)
      else allow_alias_loop resolve canonical rest cache
    | none =>
      match resolve entry with
      | none => allow_alias_loop resolve canonical rest cache
      | some resolved_name =>
        if resolved_name = "" then allow_alias_loop resolve canonical rest cache
        else
          let normalized_resolved := strLower resolved_name
          let cache := cacheSet cache entry normalized_resolved
          if normalized_resolved = canonical then (true, cache)
          else allow_alias_loop resolve canonical rest cache

/-- `_ensure_model_allowed` (the per-provider allow-list part, reached when
an allow-list is configured): accept when the lowercased requested or
canonical name is in the set, or when some entry alias-resolves to the
canonical name (memoizing it and adding the canonical name back into the
set); otherwise fail naming the requested model and the sorted allow-list.
Returns the check result together with the updated state. -/
def ensure_model_allowed (resolve : String → Option String) (st : AllowState)
    (canonical_name requested_name : String) :
    Except AllowListViolation Unit × AllowState :=
  let requested := strLower requested_name
  let canonical := strLower canonical_name
  if st.allowed_models.contains requested ∨ st.allowed_models.contains canonical then
    (.ok (), st)
  else
    match allow_alias_loop resolve canonical st.allowed_models st.alias_cache with
    | (true, cache) =>
      (.ok (),
       ⟨if st.allowed_models.contains canonical then st.allowed_models
         else st.allowed_models ++ [canonical],
        cacheSet cache canonical canonical⟩)
    | (false, cache) =>
      (.error ⟨requested_name, sortedStrings st.allowed_models⟩,
       ⟨st.allowed_models, cache⟩)

/- ---------- OpenRouter catalog cache and capability lookup
   (src/providers/openrouter.py) ---------- -/

/-- Python dict assignment on an association list: replace any existing
binding for the key. -/
def dictSet (d : List (String × Json)) (k : String) (v : Json) : List (String × Json) :=
  (d.filter (fun p => p.1 ≠ k)) ++ [(k, v)]

def dictContains (d : List (String × Json)) (k : String) : Bool :=
  (jsonLookup d k).isSome

def MODELS_API_TTL_SEC : Int := 86400

def MODELS_API_FAILURE_COOLDOWN_SEC : Int := 60

/-- The process-wide Models API cache cell: cached index, last fetch time,
last failure time. -/
structure CatalogCacheState where
  models_api_cache : Option (List (String × Json)) := none
  models_api_last_fetch : Option Int := none
  models_api_last_failure : Option Int := none

/-- Index construction from the fetched model list (source lines 106-116):
key each dict record by its id, and additionally by its canonical_slug when
that key is not already present. -/
def build_models_index : List Json → List (String × Json) → List (String × Json)
  | [], index => index
  | model :: rest, index =>
    match model with
    | .obj mf =>
      let index :=
        match jsonLookup mf "id" with
        | some (.str model_id) => if model_id ≠ "" then dictSet index model_id model else index
        | _ => index
      let index :=
        match jsonLookup mf "canonical_slug" with
        | some (.str slug) =>
          if slug ≠ "" ∧ ¬dictContains index slug then dictSet index slug model else index
        | _ => index
      build_models_index rest index
    | _ => build_models_index rest index

/-- The fetch-and-replace step of `_get_models_api_cache` (source lines
104-124): on success replace the cache atomically and clear the failure
marker; on failure record the failure time and raise. -/
def get_models_api_cache_run (now : Int) (fetch : Except Unit (List Json))
    (st : CatalogCacheState) :
    Except Unit (List (String × Json)) × CatalogCacheState × Bool :=
  match fetch with
  | .ok models =>
    let index := build_models_index models []
    (.ok index, ⟨some index, some now, none⟩, true)
  | .error _ => (.error (), { st with models_api_last_failure := some now }, true)

/-- The cooldown gate of `_get_models_api_cache` (source lines 100-102):
fail fast within 60s of the last failure, else fetch. -/
def get_models_api_cache_fetch (now : Int) (fetch : Except Unit (List Json))
    (st : CatalogCacheState) :
    Except Unit (List (String × Json)) × CatalogCacheState × Bool :=
  match st.models_api_last_failure with
  | some last_failure =>
    if now - last_failure < MODELS_API_FAILURE_COOLDOWN_SEC then (.error (), st, false)
    else get_models_api_cache_run now fetch st
  | none => get_models_api_cache_run now fetch st

/-- `OpenRouterProvider._get_models_api_cache`: within the critical section,
serve a fresh cache, fail fast during the failure cooldown, otherwise fetch
(`fetch` is the would-be result of `_fetch_models_api`). Returns the result,
the updated cache cell, and whether a network fetch was performed. -/
def get_models_api_cache (now : Int) (fetch : Except Unit (List Json))
    (st : CatalogCacheState) :
    Except Unit (List (String × Json)) × CatalogCacheState × Bool :=
  match st.models_api_cache, st.models_api_last_fetch with
  | some cache, some last_fetch =>
    if now - last_fetch < MODELS_API_TTL_SEC then (.ok cache, st, false)
    else get_models_api_cache_fetch now fetch st
  | _, _ => get_models_api_cache_fetch now fetch st

/-- Identifier up to the last colon (Python `name.rsplit(":", 1)[0]`). -/
def rsplitColonBase (s : String) : String :=
  let cs := s.toList
  match cs.reverse.findIdx? (· = ':') with
  | some rj => String.mk (cs.take (cs.length - 1 - rj))
  | none => s

/-- `OpenRouterProvider._lookup_dynamic_model_info`: consult the cache (a
failure, including the cooldown, yields none); look the name up directly,
then under its base identifier when the name carries a `:suffix` variant. -/
def lookup_dynamic_model_info (now : Int) (fetch : Except Unit (List Json))
    (st : CatalogCacheState) (model_name : String) :
    Option Json × CatalogCacheState × Bool :=
  match get_models_api_cache now fetch st with
  | (.error _, st2, fetched) => (none, st2, fetched)
  | (.ok index, st2, fetched) =>
    match jsonLookup index model_name with
    | some hit => (some hit, st2, fetched)
    | none =>
      if model_name.toList.contains ':' then
        (jsonLookup index (rsplitColonBase model_name), st2, fetched)
      else (none, st2, fetched)

/-- The capability record fields this layer reads and writes. Fields the
source sets through the ModelCapabilities constructor are included;
temperature constraints are (min, max, default). -/
structure ModelCapabilities where
  model_name : String
  friendly_name : String
  intelligence_score : Nat
  description : String
  context_window : Int
  max_output_tokens : Int
  supports_extended_thinking : Bool
  supports_system_prompts : Bool
  supports_streaming : Bool
  supports_function_calling : Bool
  supports_images : Bool
  supports_json_mode : Bool
  supports_temperature : Bool
  allow_code_generation : Bool
  temperature_constraint : ℚ × ℚ × ℚ
  is_generic : Bool
deriving DecidableEq

/-- Python `int(x or 0)`: falsy values give 0. (A string value here would
raise in the source rather than coerce; string-valued catalog lengths are
outside this model.) -/
def pyIntOrZero : Option Json → Int
  | some (.num n) => n
  | some (.bool b) => if b then 1 else 0
  | _ => 0

/-- `OpenRouterProvider._build_capabilities_from_models_api`: derive a
capability record from a catalog record. -/
def build_capabilities_from_models_api (friendly : String) (model_name : String)
    (model_info : Json) : ModelCapabilities :=
  let context_window :=
    let cl := pyIntOrZero (model_info.get "context_length")
    if cl = 0 then 32768 else cl
  let max_output_tokens :=
    match model_info.get "top_provider" with
    | some (.obj tpf) =>
      match jsonLookup tpf "max_completion_tokens" with
      | some (.num m) => m
      | _ => min context_window 32768
    | _ => min context_window 32768
  let input_modalities :=
    match model_info.get "architecture" with
    | some (.obj af) =>
      match jsonLookup af "input_modalities" with
      | some (.arr raw) =>
        raw.foldr (fun (m : Json) acc => (match m with | .str s => [s] | _ => []) ++ acc) []
      | _ => []
    | _ => []
  let supported_parameters :=
    match model_info.get "supported_parameters" with
    | some (.arr raw) =>
      raw.foldr (fun (p : Json) acc => (match p with | .str s => [s] | _ => []) ++ acc) []
    | _ => []
  let description :=
    match (if getTruthy (match model_info with | .obj f => f | _ => []) "description"
           then model_info.get "description"
           else model_info.get "name") with
    | some (.str d) => d
    | _ => ""
  { model_name := model_name
    friendly_name := friendly ++ " (" ++ model_name ++ ")"
    intelligence_score := 9
    description := description
    context_window := context_window
    max_output_tokens := max_output_tokens
    supports_extended_thinking := false
    supports_system_prompts := true
    supports_streaming := true
    supports_function_calling := supported_parameters.contains "tools"
    supports_images := input_modalities.contains "image"
    supports_json_mode := supported_parameters.contains "response_format" ||
      supported_parameters.contains "structured_outputs"
    supports_temperature := supported_parameters.contains "temperature"
    allow_code_generation := true
    temperature_constraint := (0, 2, 3 / 10)
    is_generic := false }

/-- The generic fallback capability record the source synthesizes for
provider-prefixed identifiers missing from both the registry and the
catalog (source lines 223-238). Fields the source constructor call leaves
unset are modelled from the spec: the generic record supports no images
(shared.py, which holds the dataclass defaults, is not under src/). -/
def generic_openrouter_capabilities (canonical_name : String) : ModelCapabilities :=
  { model_name := canonical_name
    friendly_name := "OpenRouter"
    intelligence_score := 9
    description := ""
    context_window := 32768
    max_output_tokens := 32768
    supports_extended_thinking := false
    supports_system_prompts := true
    supports_streaming := true
    supports_function_calling := false
    supports_images := false
    supports_json_mode := false
    supports_temperature := true
    allow_code_generation := true
    temperature_constraint := (0, 2, 1)
    is_generic := true }

/-- `OpenRouterProvider._lookup_capabilities`: static registry first (the
registry, defined under providers/registries/, is modelled as an oracle);
for provider-prefixed identifiers, the dynamic catalog, then the generic
fallback; otherwise not found. -/
def lookup_capabilities (registry : String → Option ModelCapabilities)
    (now : Int) (fetch : Except Unit (List Json)) (st : CatalogCacheState)
    (canonical_name : String) :
    Option ModelCapabilities × CatalogCacheState × Bool :=
  match registry canonical_name with
  | some capabilities => (some capabilities, st, false)
  | none =>
    let base_identifier := rsplitColonBase canonical_name
    if base_identifier.toList.contains '/' then
      match lookup_dynamic_model_info now fetch st canonical_name with
      | (some model_info, st2, fetched) =>
        (some (build_capabilities_from_models_api "OpenRouter" canonical_name model_info),
         st2, fetched)
      | (none, st2, fetched) =>
        (some (generic_openrouter_capabilities canonical_name), st2, fetched)
    else (none, st, false)

/- ---------- first-activity timeout configuration:
   OpenAICompatibleProvider._get_openrouter_processing_timeout_sec ---------- -/

/-- A Python float value: a finite rational, one of the two infinities, or
nan. Python float("nan") and float("inf") succeed, so a parsed override can
be non-finite. -/
inductive PyFloat where
  | finite (q : ℚ)
  | inf
  | negInf
  | nan
deriving DecidableEq

/-- Python `value <= 0` on a float: nan compares False against everything. -/
def PyFloat.le_zero : PyFloat → Bool
  | .finite q => decide (q ≤ 0)
  | .inf => false
  | .negInf => true
  | .nan => false

/-- Python `value > 0` on a float: nan compares False against everything,
so nan is not strictly positive; inf is. -/
def PyFloat.is_strictly_positive : PyFloat → Bool
  | .finite q => decide (0 < q)
  | .inf => true
  | .negInf => false
  | .nan => false

def OPENROUTER_PROCESSING_TIMEOUT_DEFAULT_SEC : PyFloat := .finite 15

/-- `_get_openrouter_processing_timeout_sec`: the OPENROUTER_PROCESSING_TIMEOUT
environment value (none when unset), stripped; empty or unparsable values
and parsed values comparing `<= 0` fall back to the 15.0s default; any
other parsed value is returned as-is — including nan and inf, since
`nan <= 0` is False. `parseFloat` models Python float(). -/
def get_openrouter_processing_timeout_sec (parseFloat : String → Option PyFloat)
    (env_value : Option String) : PyFloat :=
  let raw := pyStrip (env_value.getD "")
  if raw = "" then OPENROUTER_PROCESSING_TIMEOUT_DEFAULT_SEC
  else
    match parseFloat raw with
    | none => OPENROUTER_PROCESSING_TIMEOUT_DEFAULT_SEC
    | some value =>
      if value.le_zero then OPENROUTER_PROCESSING_TIMEOUT_DEFAULT_SEC
      else value

/- ==================== theorems ==================== -/

/-- C9 counterexample: usage normalization does not clamp to non-negative
counts. For the concrete usage block with prompt_tokens = -3 and
completion_tokens = 5 the source returns input_tokens = -3, a negative
count, contradicting the claim that the returned counts are all
non-negative integers. -/
theorem c9_counterexample :
    extract_usage_dict (.obj [("prompt_tokens", .num (-3)), ("completion_tokens", .num 5)])
      = some ⟨-3, 5, 2⟩ ∧ (-3 : Int) < 0 :=
  ⟨rfl, by decide⟩

/-- C9 (amended): usage normalization accepts either the
prompt_tokens/completion_tokens block or the input_tokens/output_tokens
block and returns input/output/total; a missing total is computed as
input + output; an all-zero block normalizes to none; the returned counts
are integers, non-negative whenever the reported token fields are
non-negative; and the worked examples hold. -/
theorem c9_usage_normalization_amended :
    (∀ a b : Int,
      extract_usage_dict (.obj [("prompt_tokens", .num a), ("completion_tokens", .num b)])
        = if a = 0 ∧ b = 0 then none else some ⟨a, b, a + b⟩)
    ∧ (∀ a b : Int,
      extract_usage_dict (.obj [("input_tokens", .num a), ("output_tokens", .num b)])
        = if a = 0 ∧ b = 0 then none else some ⟨a, b, a + b⟩)
    ∧ (∀ a b t : Int,
      extract_usage_dict
          (.obj [("prompt_tokens", .num a), ("completion_tokens", .num b), ("total_tokens", .num t)])
        = if a = 0 ∧ b = 0 ∧ t = 0 then none else some ⟨a, b, t⟩)
    ∧ (∀ a b : Int, 0 ≤ a → 0 ≤ b → ∀ u : UsageDict,
        extract_usage_dict (.obj [("prompt_tokens", .num a), ("completion_tokens", .num b)])
          = some u →
        0 ≤ u.input_tokens ∧ 0 ≤ u.output_tokens ∧ 0 ≤ u.total_tokens)
    ∧ extract_usage_dict (.obj [("prompt_tokens", .num 3), ("completion_tokens", .num 5)])
        = some ⟨3, 5, 8⟩
    ∧ extract_usage_dict (.obj [("input_tokens", .num 3), ("output_tokens", .num 5)])
        = some ⟨3, 5, 8⟩
    ∧ extract_usage_dict (.obj [("prompt_tokens", .num 0), ("completion_tokens", .num 0)])
        = none := by
  refine ⟨?_, ?_, ?_, ?_, rfl, rfl, rfl⟩
  · intro a b
    simp [extract_usage_dict, pyGet, jsonLookup, to_int]
    split_ifs <;> simp_all
  · intro a b
    simp [extract_usage_dict, pyGet, jsonLookup, to_int]
    split_ifs <;> simp_all
  · intro a b t
    simp [extract_usage_dict, pyGet, jsonLookup, to_int]
  · intro a b ha hb u h
    simp [extract_usage_dict, pyGet, jsonLookup, to_int] at h
    obtain ⟨-, rfl⟩ := h
    dsimp only
    exact ⟨ha, hb, by omega⟩

/-- C9 witness: the non-negativity clause of the amended claim evaluated at
the concrete non-negative block {prompt_tokens: 3, completion_tokens: 5}. -/
theorem c9_witness :
    (0 : Int) ≤ 3 ∧ (0 : Int) ≤ 5 ∧
      (0 ≤ (⟨3, 5, 8⟩ : UsageDict).input_tokens
        ∧ 0 ≤ (⟨3, 5, 8⟩ : UsageDict).output_tokens
        ∧ 0 ≤ (⟨3, 5, 8⟩ : UsageDict).total_tokens) :=
  ⟨by decide, by decide,
    c9_usage_normalization_amended.2.2.2.1 3 5 (by decide) (by decide) ⟨3, 5, 8⟩ rfl⟩

/-- The nan-returning float-parse oracle of the C10 counterexample. -/
def c10NanParse : String → Option PyFloat := fun s =>
  if s = "nan" then some .nan else none

/-- C10 counterexample: at OPENROUTER_PROCESSING_TIMEOUT = "nan" the source
returns nan: float("nan") succeeds and nan <= 0 is False, so no fallback to
the 15.0s default is taken and the returned timeout is not strictly
positive. -/
theorem c10_counterexample :
    get_openrouter_processing_timeout_sec c10NanParse (some "nan") = .nan
    ∧ PyFloat.is_strictly_positive .nan = false :=
  ⟨rfl, rfl⟩

/-- C10 (amended): unset, empty and unparsable overrides, and parsed values
comparing `<= 0`, silently fall back to the built-in 15.0s default; any
other parsed value is used as-is; the timeout used is strictly positive in
every case except a nan-valued override, which is the only way the result
can be nan — it is passed through because `nan <= 0` is False. -/
theorem c10_processing_timeout_amended :
    (∀ (parseFloat : String → Option PyFloat),
      get_openrouter_processing_timeout_sec parseFloat none = .finite 15)
    ∧ (∀ (parseFloat : String → Option PyFloat) (s : String), pyStrip s = "" →
        get_openrouter_processing_timeout_sec parseFloat (some s) = .finite 15)
    ∧ (∀ (parseFloat : String → Option PyFloat) (s : String),
        pyStrip s ≠ "" → parseFloat (pyStrip s) = none →
        get_openrouter_processing_timeout_sec parseFloat (some s) = .finite 15)
    ∧ (∀ (parseFloat : String → Option PyFloat) (s : String) (v : PyFloat),
        pyStrip s ≠ "" → parseFloat (pyStrip s) = some v → v.le_zero = true →
        get_openrouter_processing_timeout_sec parseFloat (some s) = .finite 15)
    ∧ (∀ (parseFloat : String → Option PyFloat) (s : String) (v : PyFloat),
        pyStrip s ≠ "" → parseFloat (pyStrip s) = some v → v.le_zero = false →
        get_openrouter_processing_timeout_sec parseFloat (some s) = v)
    ∧ (∀ (parseFloat : String → Option PyFloat) (env : Option String),
        get_openrouter_processing_timeout_sec parseFloat env ≠ PyFloat.nan →
        (get_openrouter_processing_timeout_sec parseFloat env).is_strictly_positive = true)
    ∧ (∀ (parseFloat : String → Option PyFloat) (env : Option String),
        get_openrouter_processing_timeout_sec parseFloat env = PyFloat.nan →
        ∃ s, env = some s ∧ parseFloat (pyStrip s) = some PyFloat.nan) := by
  refine ⟨?_, ?_, ?_, ?_, ?_, ?_, ?_⟩
  · intro parseFloat
    simp [get_openrouter_processing_timeout_sec, pyStrip,
      OPENROUTER_PROCESSING_TIMEOUT_DEFAULT_SEC]
  · intro parseFloat s hs
    simp [get_openrouter_processing_timeout_sec, hs,
      OPENROUTER_PROCESSING_TIMEOUT_DEFAULT_SEC]
  · intro parseFloat s hs hp
    simp [get_openrouter_processing_timeout_sec, hs, hp,
      OPENROUTER_PROCESSING_TIMEOUT_DEFAULT_SEC]
  · intro parseFloat s v hs hp hv
    simp [get_openrouter_processing_timeout_sec, hs, hp, hv,
      OPENROUTER_PROCESSING_TIMEOUT_DEFAULT_SEC]
  · intro parseFloat s v hs hp hv
    simp [get_openrouter_processing_timeout_sec, hs, hp, hv,
      OPENROUTER_PROCESSING_TIMEOUT_DEFAULT_SEC]
  · intro parseFloat env hnan
    simp only [get_openrouter_processing_timeout_sec,
      OPENROUTER_PROCESSING_TIMEOUT_DEFAULT_SEC] at hnan ⊢
    split_ifs with h1
    · decide
    · cases hp : parseFloat (pyStrip (env.getD "")) with
      | none =>
        simp only [hp]
        decide
      | some v =>
        simp only [hp] at hnan ⊢
        split_ifs at hnan ⊢ with h2
        · decide
        · cases v with
          | finite q =>
            have hq : ¬ q ≤ 0 := by simpa [PyFloat.le_zero] using h2
            simp [PyFloat.is_strictly_positive, not_le.mp hq]
          | inf => rfl
          | negInf => exact absurd (by rfl) h2
          | nan => exact absurd rfl hnan
  · intro parseFloat env h
    cases env with
    | none =>
      simp [get_openrouter_processing_timeout_sec, pyStrip,
        OPENROUTER_PROCESSING_TIMEOUT_DEFAULT_SEC] at h
    | some s =>
      refine ⟨s, rfl, ?_⟩
      by_cases hs : pyStrip s = ""
      · simp [get_openrouter_processing_timeout_sec, hs,
          OPENROUTER_PROCESSING_TIMEOUT_DEFAULT_SEC] at h
      · cases hp : parseFloat (pyStrip s) with
        | none =>
          simp [get_openrouter_processing_timeout_sec, hs, hp,
            OPENROUTER_PROCESSING_TIMEOUT_DEFAULT_SEC] at h
        | some v =>
          by_cases hz : v.le_zero = true
          · simp [get_openrouter_processing_timeout_sec, hs, hp, hz,
              OPENROUTER_PROCESSING_TIMEOUT_DEFAULT_SEC] at h
          · have hv : get_openrouter_processing_timeout_sec parseFloat (some s) = v := by
              simp [get_openrouter_processing_timeout_sec, hs, hp, hz]
            rw [hv] at h
            rw [← h]

/-- Concrete float-parse oracle for the C10 witness. -/
def c10ParseOracle : String → Option PyFloat := fun s =>
  if s = "2" then some (.finite 2)
  else if s = "-3" then some (.finite (-3))
  else none

/-- C10 witness: the amended theorem evaluated at a concrete oracle and
concrete environment values: a positive value is used as-is and is strictly
positive, a negative value and an unparsable one fall back to 15. -/
theorem c10_witness :
    get_openrouter_processing_timeout_sec c10ParseOracle (some " 2 ") = .finite 2
    ∧ get_openrouter_processing_timeout_sec c10ParseOracle (some "-3") = .finite 15
    ∧ get_openrouter_processing_timeout_sec c10ParseOracle (some "abc") = .finite 15
    ∧ (get_openrouter_processing_timeout_sec c10ParseOracle
        (some " 2 ")).is_strictly_positive = true :=
  ⟨c10_processing_timeout_amended.2.2.2.2.1 c10ParseOracle " 2 " (.finite 2)
      (by decide) rfl (by decide),
   c10_processing_timeout_amended.2.2.2.1 c10ParseOracle "-3" (.finite (-3))
      (by decide) rfl (by decide),
   c10_processing_timeout_amended.2.2.1 c10ParseOracle "abc" (by decide) rfl,
   c10_processing_timeout_amended.2.2.2.2.2.1 c10ParseOracle (some " 2 ") (by decide)⟩

/-- C5 counterexample: at the `generate_content` call site the delay list
[1, 3, 5, 8] has length 4 while max_attempts - 1 = 3, so the claimed
invariant len(delays) == max_attempts - 1 fails. -/
theorem c5_counterexample :
    generate_content_retry_delays.length ≠ generate_content_max_retries - 1 := by
  decide

/-- C5 (amended): at both call sites len(delays) == max_attempts (one delay
more than the runner can consume); the runner runs attempt 1 immediately,
aborts immediately on a non-retryable failure, and when every attempt fails
retryably it makes exactly max_attempts = 4 attempts, sleeping delays
1, 3, 5 between them (the final delay 8 is never consumed), and the call
site raises one aggregated failure naming the attempt count actually made
and the last underlying error. -/
theorem c5_retry_runner_amended :
    generate_content_retry_delays.length = generate_content_max_retries
    ∧ responses_endpoint_retry_delays.length = responses_endpoint_max_retries
    ∧ (∀ (ε α : Type) (retryable : ε → Bool) (op : Nat → Except ε α) (v : α),
        op 1 = .ok v →
        run_with_retries retryable op generate_content_max_retries
            generate_content_retry_delays = .ok v 1 [])
    ∧ (∀ (ε α : Type) (retryable : ε → Bool) (op : Nat → Except ε α) (e : ε),
        op 1 = .error e → retryable e = false →
        run_with_retries retryable op generate_content_max_retries
            generate_content_retry_delays = .aborted e 1 []
        ∧ generate_content_retry_shell retryable op = .error ⟨1, e⟩)
    ∧ (∀ (ε α : Type) (retryable : ε → Bool) (op : Nat → Except ε α) (errf : Nat → ε),
        (∀ i, op i = .error (errf i)) → (∀ i, retryable (errf i) = true) →
        run_with_retries retryable op generate_content_max_retries
            generate_content_retry_delays = .exhausted (errf 4) 4 [1, 3, 5]
        ∧ generate_content_retry_shell retryable op = .error ⟨4, errf 4⟩) := by
  refine ⟨rfl, rfl, ?_, ?_, ?_⟩
  · intro ε α retryable op v h
    simp [run_with_retries, run_with_retries_go, generate_content_max_retries,
      generate_content_retry_delays, h]
  · intro ε α retryable op e h hr
    constructor
    · simp [run_with_retries, run_with_retries_go, generate_content_max_retries,
        generate_content_retry_delays, h, hr]
    · simp [generate_content_retry_shell, run_with_retries, run_with_retries_go,
        generate_content_max_retries, generate_content_retry_delays, h, hr]
  · intro ε α retryable op errf h hr
    constructor
    · simp [run_with_retries, run_with_retries_go, generate_content_max_retries,
        generate_content_retry_delays, h, hr]
    · simp [generate_content_retry_shell, run_with_retries, run_with_retries_go,
        generate_content_max_retries, generate_content_retry_delays, h, hr]

/-- C5 witness: the amended runner behavior evaluated at concrete operations
(an always-retryable error classifier, one immediately failing operation
and one always-failing operation). -/
theorem c5_witness :
    (run_with_retries (fun _ => true) (fun _ => (.error "boom" : Except String Nat))
        generate_content_max_retries generate_content_retry_delays
      = .exhausted "boom" 4 [1, 3, 5])
    ∧ generate_content_retry_shell (fun _ => true)
        (fun _ => (.error "boom" : Except String Nat)) = .error ⟨4, "boom"⟩
    ∧ (run_with_retries (fun _ => false) (fun _ => (.error "bad" : Except String Nat))
        generate_content_max_retries generate_content_retry_delays
      = .aborted "bad" 1 [])
    ∧ (run_with_retries (fun _ => true) (fun _ => (.ok 7 : Except String Nat))
        generate_content_max_retries generate_content_retry_delays
      = .ok 7 1 []) :=
  ⟨(c5_retry_runner_amended.2.2.2.2 String Nat (fun _ => true)
      (fun _ => .error "boom") (fun _ => "boom") (fun _ => rfl) (fun _ => rfl)).1,
   (c5_retry_runner_amended.2.2.2.2 String Nat (fun _ => true)
      (fun _ => .error "boom") (fun _ => "boom") (fun _ => rfl) (fun _ => rfl)).2,
   (c5_retry_runner_amended.2.2.2.1 String Nat (fun _ => false)
      (fun _ => .error "bad") "bad" rfl rfl).1,
   c5_retry_runner_amended.2.2.1 String Nat (fun _ => true)
      (fun _ => .ok 7) 7 rfl⟩

/-- Concrete literal-parse oracle for the C4 evaluations: parses the
single-quoted 429 error payloads used below, as ast.literal_eval would. -/
def c4ParseLiteral : ParseDictOracle := fun s =>
  if s = "\x7b'error': \x7b'type': 'tokens', 'code': 'rate_limit_exceeded'\x7d\x7d" then
    some [("error", .obj [("type", .str "tokens"), ("code", .str "rate_limit_exceeded")])]
  else if s = "\x7b'error': \x7b'code': 'context_length_exceeded'\x7d\x7d" then
    some [("error", .obj [("code", .str "context_length_exceeded")])]
  else none

/-- Concrete strict-JSON oracle for the C4 evaluations (never consulted for
payloads the literal parse already accepts). -/
def c4ParseJson : ParseDictOracle := fun _ => none

/-- C4: the retryability classification agrees, for every pair of parse
oracles and every error text, with the spec classifier (429 errors are
non-retryable exactly when the structured payload names type tokens or one
of the two permanent codes, any other 429 is retryable; non-429 errors are
retryable exactly when the lowercased text contains a transient-failure
indicator), and the concrete 429/non-429 evaluations hold. -/
theorem c4_retryability_classification :
    (∀ (parseLiteral parseJsonStrict : ParseDictOracle) (error_text : String),
      is_error_retryable parseLiteral parseJsonStrict error_text
        = retryable_spec parseLiteral parseJsonStrict error_text)
    ∧ is_error_retryable c4ParseLiteral c4ParseJson
        "Error code: 429 - \x7b'error': \x7b'type': 'tokens', 'code': 'rate_limit_exceeded'\x7d\x7d"
        = false
    ∧ is_error_retryable c4ParseLiteral c4ParseJson
        "Error code: 429 - \x7b'error': \x7b'code': 'context_length_exceeded'\x7d\x7d"
        = false
    ∧ is_error_retryable c4ParseLiteral c4ParseJson
        "Error code: 429 Too Many Requests" = true
    ∧ is_error_retryable c4ParseLiteral c4ParseJson
        "Connection reset by peer" = true
    ∧ is_error_retryable c4ParseLiteral c4ParseJson
        "HTTP 503 Service Unavailable" = true
    ∧ is_error_retryable c4ParseLiteral c4ParseJson
        "Error code: 400 Bad Request" = false := by
  refine ⟨?_, rfl, rfl, rfl, rfl, rfl, rfl⟩
  intro parseLiteral parseJsonStrict error_text
  unfold is_error_retryable retryable_spec
  cases h429 : strContainsSub (strLower error_text) "429" with
  | false => simp [h429]
  | true =>
    simp only [h429, if_true]
    obtain ⟨t, c⟩ := structured_error_type_code parseLiteral parseJsonStrict error_text
    cases ht : jsonEqStr t "tokens" <;>
      cases hc1 : jsonEqStr c "invalid_request_error" <;>
        cases hc2 : jsonEqStr c "context_length_exceeded" <;>
          simp [ht, hc1, hc2]

/- ---------- helper lemmas for the streaming proofs ---------- -/

lemma concatAll_append (l1 l2 : List String) :
    concatAll (l1 ++ l2) = concatAll l1 ++ concatAll l2 := by
  induction l1 with
  | nil => simp [concatAll]
  | cons s rest ih => simp [concatAll, ih, String.append_assoc]

/-- The delta-string contribution of one element of `choices`. -/
def choice_delta_strings (c : Json) : List String :=
  match c with
  | .obj cf =>
    match jsonLookup cf "delta" with
    | some (.obj df) =>
      match jsonLookup df "content" with
      | some (.str s) => [s]
      | _ => []
    | _ => []
  | _ => []

lemma chat_payload_delta_strings_eq (p : Json) :
    chat_payload_delta_strings p
      = (match p with
         | .obj pf =>
           match jsonLookup pf "choices" with
           | some (.arr choices) => choices.foldr (fun c acc => choice_delta_strings c ++ acc) []
           | _ => []
         | _ => []) := by
  cases p <;> simp [chat_payload_delta_strings, choice_delta_strings]

lemma process_chat_choice_concat (st : ChatState) (c : Json) :
    concatAll (process_chat_choice st c).content_parts
      = concatAll st.content_parts ++ concatAll (choice_delta_strings c) := by
  cases c with
  | obj cf =>
    simp only [process_chat_choice, choice_delta_strings]
    cases hfr : pyGet cf "finish_reason" <;>
    · cases hd : jsonLookup cf "delta" with
      | none => simp [concatAll]
      | some d =>
        cases d <;> simp [concatAll]
        case obj df =>
          cases hc : jsonLookup df "content" with
          | none => simp [concatAll]
          | some v =>
            cases v <;> simp [concatAll]
            case str s =>
              by_cases hs : s = "" <;>
                simp [hs, concatAll, concatAll_append, String.append_assoc]
  | null => simp [process_chat_choice, choice_delta_strings, concatAll]
  | bool b => simp [process_chat_choice, choice_delta_strings, concatAll]
  | num n => simp [process_chat_choice, choice_delta_strings, concatAll]
  | str s => simp [process_chat_choice, choice_delta_strings, concatAll]
  | arr l => simp [process_chat_choice, choice_delta_strings, concatAll]

lemma process_chat_choices_concat (choices : List Json) :
    ∀ st : ChatState,
      concatAll (process_chat_choices st choices).content_parts
        = concatAll st.content_parts
          ++ concatAll (choices.foldr (fun c acc => choice_delta_strings c ++ acc) []) := by
  induction choices with
  | nil => intro st; simp [process_chat_choices, concatAll]
  | cons c rest ih =>
    intro st
    simp only [process_chat_choices, List.foldr]
    rw [ih, process_chat_choice_concat, concatAll_append, String.append_assoc]

lemma process_chat_payload_fields_concat (st : ChatState) (pf : List (String × Json)) :
    concatAll (process_chat_payload_fields st pf).content_parts
      = concatAll st.content_parts
        ++ concatAll (chat_payload_delta_strings (.obj pf)) := by
  rw [chat_payload_delta_strings_eq]
  simp only [process_chat_payload_fields]
  cases hch : jsonLookup pf "choices" with
  | none =>
    cases getTruthy pf "id" <;> cases pyGet pf "created" <;>
      cases getTruthy pf "model" <;> cases hu : jsonLookup pf "usage" <;>
        simp [hch, concatAll]
    all_goals cases extract_usage_dict _ <;> simp [concatAll]
  | some v =>
    cases v <;>
      first
      | (cases getTruthy pf "id" <;> cases pyGet pf "created" <;>
          cases getTruthy pf "model" <;> cases hu : jsonLookup pf "usage" <;>
            simp [hch, concatAll]
         all_goals cases extract_usage_dict _ <;> simp [concatAll])
      | skip
    case arr choices =>
      cases getTruthy pf "id" <;> cases pyGet pf "created" <;>
        cases getTruthy pf "model" <;> cases hu : jsonLookup pf "usage" <;>
          simp [hch, process_chat_choices_concat, concatAll]
      all_goals cases extract_usage_dict _ <;>
        simp [process_chat_choices_concat, concatAll]

lemma process_chat_payload_concat (st : ChatState) (p : Json) (st2 : ChatState)
    (h : process_chat_payload st p = .ok st2) :
    concatAll st2.content_parts
      = concatAll st.content_parts ++ concatAll (chat_payload_delta_strings p) := by
  cases p with
  | obj pf =>
    simp only [process_chat_payload] at h
    split_ifs at h with he
    cases h
    exact process_chat_payload_fields_concat st pf
  | null =>
    simp only [process_chat_payload] at h
    cases h
    simp [chat_payload_delta_strings, concatAll]
  | bool b =>
    simp only [process_chat_payload] at h
    cases h
    simp [chat_payload_delta_strings, concatAll]
  | num n =>
    simp only [process_chat_payload] at h
    cases h
    simp [chat_payload_delta_strings, concatAll]
  | str s =>
    simp only [process_chat_payload] at h
    cases h
    simp [chat_payload_delta_strings, concatAll]
  | arr l =>
    simp only [process_chat_payload] at h
    cases h
    simp [chat_payload_delta_strings, concatAll]

lemma chat_stream_go_concat (parse : String → Option Json) (lines : List String) :
    ∀ (st : ChatState) (out : LoopOut ChatState),
      chat_stream_go parse lines st = .ok out →
      concatAll out.state.content_parts
        = concatAll st.content_parts ++ chat_delta_concat_spec parse lines := by
  induction lines with
  | nil =>
    intro st out h
    simp only [chat_stream_go] at h
    cases h
    simp [chat_delta_concat_spec, concatAll]
  | cons line rest ih =>
    intro st out h
    simp only [chat_stream_go, chat_delta_concat_spec] at h ⊢
    cases hld : line_data_payload line with
    | none =>
      simp only [hld] at h ⊢
      exact ih st out h
    | some data =>
      simp only [hld] at h ⊢
      by_cases hdone : data = "[DONE]"
      · simp only [hdone, if_pos rfl] at h ⊢
        cases h
        simp [concatAll]
      · simp only [if_neg hdone] at h ⊢
        cases hp : parse data with
        | none => simp only [hp] at h; exact absurd h (by simp)
        | some payload =>
          simp only [hp] at h ⊢
          cases hpp : process_chat_payload st payload with
          | error e => simp only [hpp] at h; exact absurd h (by simp)
          | ok st3 =>
            simp only [hpp] at h
            rw [ih st3 out h, process_chat_payload_concat st payload st3 hpp,
              String.append_assoc]

lemma line_data_payload_of_blank_or_comment (l : String)
    (h : l = "" ∨ pyStrip l = "" ∨ strStarts (pyStrip l) ":" = true) :
    line_data_payload l = none := by
  unfold line_data_payload
  rcases h with h | h | h
  · simp [h]
  · simp [h]
  · by_cases h0 : l = ""
    · simp [h0]
    · by_cases h1 : pyStrip l = "" <;> simp [h0, h1, h]

/-- C1: for every chat-completions SSE stream, (1) whenever aggregation
completes, the returned content equals the concatenation, in arrival order,
of the choices[].delta.content strings of every successfully parsed data
payload (blank and comment lines contributing nothing, aggregation stopping
at [DONE]); (2) a `data: [DONE]` line ends the loop immediately in the
completed (ok) state with the accumulated state; (3) blank lines and
comment lines are skipped with no effect on the result. -/
theorem c1_chat_stream_aggregation :
    (∀ (parse : String → Option Json) (model_name : String) (lines : List String)
        (resp : ModelResponseOf ChatMeta),
      generate_openrouter_chat_completions_streaming parse model_name lines = .ok resp →
      resp.content = chat_delta_concat_spec parse lines)
    ∧ (∀ (parse : String → Option Json) (rest : List String) (st : ChatState),
        chat_stream_go parse ("data: [DONE]" :: rest) st = .ok ⟨st, true⟩)
    ∧ (∀ (parse : String → Option Json) (l : String) (rest : List String) (st : ChatState),
        l = "" ∨ pyStrip l = "" ∨ strStarts (pyStrip l) ":" = true →
        chat_stream_go parse (l :: rest) st = chat_stream_go parse rest st) := by
  refine ⟨?_, ?_, ?_⟩
  · intro parse model_name lines resp h
    unfold generate_openrouter_chat_completions_streaming at h
    cases hgo : chat_stream_go parse lines {} with
    | error e => rw [hgo] at h; exact absurd h (by simp)
    | ok out =>
      rw [hgo] at h
      cases h
      have := chat_stream_go_concat parse lines {} out hgo
      simpa [concatAll] using this
  · intro parse rest st
    have hld : line_data_payload "data: [DONE]" = some "[DONE]" := rfl
    simp [chat_stream_go, hld]
  · intro parse l rest st h
    simp [chat_stream_go, line_data_payload_of_blank_or_comment l h]

/-- The two chat chunks of the C1 witness stream. -/
def c1PayloadHi : Json :=
  .obj [("choices", .arr [.obj [("delta", .obj [("content", .str "hi")])]])]

def c1PayloadThere : Json :=
  .obj [("choices", .arr [.obj [("delta", .obj [("content", .str " there")]),
    ("finish_reason", .str "stop")]])]

/-- A concrete json.loads oracle for the C1 witness stream. -/
def c1Parse : String → Option Json := fun s =>
  if s = "\x7b\"choices\":[\x7b\"delta\":\x7b\"content\":\"hi\"\x7d\x7d]\x7d" then some c1PayloadHi
  else if s = "\x7b\"choices\":[\x7b\"delta\":\x7b\"content\":\" there\"\x7d,\"finish_reason\":\"stop\"\x7d]\x7d" then
    some c1PayloadThere
  else none

/-- The C1 witness stream: a keep-alive comment, a blank line, deltas
"hi" and " there", then [DONE] and a line after the terminator. -/
def c1HiLines : List String :=
  [": OPENROUTER PROCESSING", "",
   "data: \x7b\"choices\":[\x7b\"delta\":\x7b\"content\":\"hi\"\x7d\x7d]\x7d",
   "data: \x7b\"choices\":[\x7b\"delta\":\x7b\"content\":\" there\"\x7d,\"finish_reason\":\"stop\"\x7d]\x7d",
   "data: [DONE]",
   "data: after-done"]

def c1Resp : ModelResponseOf ChatMeta :=
  ⟨"hi there", none, "m", { finish_reason := some (.str "stop") }⟩

/-- C1 witness: the hi/there stream aggregates to content "hi there", which
equals the spec-side delta concatenation, via the theorem applied at the
concrete stream. -/
theorem c1_witness :
    generate_openrouter_chat_completions_streaming c1Parse "m" c1HiLines = .ok c1Resp
    ∧ c1Resp.content = chat_delta_concat_spec c1Parse c1HiLines
    ∧ c1Resp.content = "hi there" :=
  ⟨rfl, c1_chat_stream_aggregation.1 c1Parse "m" c1HiLines c1Resp rfl, rfl⟩

/- ---------- C2 lemmas ---------- -/

lemma jsonEqStr_iff (v : Option Json) (s : String) :
    jsonEqStr v s = true ↔ v = some (.str s) := by
  cases v with
  | none => simp [jsonEqStr]
  | some j => cases j <;> simp [jsonEqStr]

lemma concatAll_foldr_map {α : Type} (F : α → List String) (G : α → String)
    (hFG : ∀ x, concatAll (F x) = G x) (l : List α) :
    concatAll (l.foldr (fun x acc => F x ++ acc) []) = concatAll (l.map G) := by
  induction l with
  | nil => rfl
  | cons x xs ih => simp [concatAll, concatAll_append, hFG, ih]

lemma extract_output_text_eq_spec (p : Json) :
    extract_output_text_from_responses_payload p = responses_output_text_spec p := by
  unfold extract_output_text_from_responses_payload responses_output_text_spec
  cases hp : p.get "output" with
  | none => rfl
  | some v =>
    cases v <;> try rfl
    case arr output =>
      refine concatAll_foldr_map _ _ ?_ output
      intro item
      cases item <;> try simp [concatAll, Json.get]
      case obj itf =>
        cases hc : jsonLookup itf "content" with
        | none => simp [concatAll]
        | some cv =>
          cases cv <;> try simp [concatAll]
          case arr content =>
            refine concatAll_foldr_map _ _ ?_ content
            intro ci
            cases ci <;> try simp [concatAll, Json.get]
            case obj cif =>
              cases ht : jsonEqStr (jsonLookup cif "type") "output_text" with
              | false => simp [ht, concatAll]
              | true =>
                simp only [ht, if_true]
                cases htx : jsonLookup cif "text" with
                | none => simp [concatAll]
                | some tv => cases tv <;> simp [concatAll]

lemma process_resp_response_obj_parts (st : RespState) (r : Json) :
    (process_resp_response_obj st r).output_parts = st.output_parts
    ∧ (process_resp_response_obj st r).completed_response = st.completed_response := by
  cases r <;> try exact ⟨rfl, rfl⟩
  case obj rf =>
    simp only [process_resp_response_obj]
    cases getTruthy rf "id" <;> cases pyGet rf "created_at" <;>
      cases getTruthy rf "model" <;> cases hu : jsonLookup rf "usage" <;>
        simp
    all_goals cases extract_usage_dict _ <;> simp

/-- Does this SSE line carry a well-formed `response.completed` event, and
with which `response` payload (used to state the C2 properties). -/
def line_completed_response (parse : String → Option Json) (line : String) : Option Json :=
  match line_data_payload line with
  | none => none
  | some data =>
    if data = "[DONE]" then none
    else
      match parse data with
      | some (.obj ef) =>
        if getTruthy ef "error" then none
        else if jsonEqStr (jsonLookup ef "type") "response.completed"
            ∧ ((jsonLookup ef "response").getD .null).isObj then jsonLookup ef "response"
        else none
      | _ => none

lemma line_completed_response_elim (parse : String → Option Json) (line : String) (r : Json)
    (h : line_completed_response parse line = some r) :
    ∃ data ef, line_data_payload line = some data ∧ data ≠ "[DONE]"
      ∧ parse data = some (.obj ef)
      ∧ getTruthy ef "error" = false
      ∧ jsonLookup ef "type" = some (.str "response.completed")
      ∧ jsonLookup ef "response" = some r
      ∧ r.isObj = true := by
  unfold line_completed_response at h
  cases hld : line_data_payload line with
  | none => simp [hld] at h
  | some data =>
    simp only [hld] at h
    by_cases hdone : data = "[DONE]"
    · simp [hdone] at h
    · simp only [if_neg hdone] at h
      cases hp : parse data with
      | none => simp [hp] at h
      | some ev =>
        cases ev with
        | obj ef =>
          simp only [hp] at h
          by_cases herr : getTruthy ef "error"
          · simp [herr] at h
          · rw [if_neg (by simp [herr])] at h
            by_cases hcomp : jsonEqStr (jsonLookup ef "type") "response.completed"
                ∧ ((jsonLookup ef "response").getD .null).isObj
            · rw [if_pos hcomp] at h
              obtain ⟨h1, h2⟩ := hcomp
              refine ⟨data, ef, rfl, hdone, hp, by simpa using herr,
                (jsonEqStr_iff _ _).mp h1, h, ?_⟩
              rw [h] at h2
              simpa using h2
            · rw [if_neg hcomp] at h
              simp at h
        | null => simp [hp] at h
        | bool b => simp [hp] at h
        | num n => simp [hp] at h
        | str s => simp [hp] at h
        | arr l => simp [hp] at h

lemma process_resp_event_completed (st : RespState) (ef : List (String × Json)) (r : Json)
    (herr : getTruthy ef "error" = false)
    (htype : jsonLookup ef "type" = some (.str "response.completed"))
    (hresp : jsonLookup ef "response" = some r) (hobj : r.isObj = true) :
    process_resp_event st (.obj ef)
      = .ok ⟨{ process_resp_response_obj
                { st with meta := { st.meta with last_event_type := some "response.completed" } } r
              with completed_response := some r }, true⟩ := by
  simp only [process_resp_event, herr, htype, hresp]
  simp [jsonEqStr, hobj]

lemma resp_stream_go_completed (parse : String → Option Json) (line : String) (r : Json)
    (rest : List String) (st : RespState)
    (h : line_completed_response parse line = some r) :
    resp_stream_go parse (line :: rest) st
      = .ok ⟨{ process_resp_response_obj
                { st with meta := { st.meta with last_event_type := some "response.completed" } } r
              with completed_response := some r }, true⟩ := by
  obtain ⟨data, ef, hld, hdone, hp, herr, htype, hresp, hobj⟩ :=
    line_completed_response_elim parse line r h
  simp only [resp_stream_go, hld, if_neg hdone, hp,
    process_resp_event_completed st ef r herr htype hresp hobj]

lemma resp_stream_go_append (parse : String → Option Json) (pre : List String) :
    ∀ (rest : List String) (st st' : RespState),
      resp_stream_go parse pre st = .ok ⟨st', false⟩ →
      resp_stream_go parse (pre ++ rest) st = resp_stream_go parse rest st' := by
  induction pre with
  | nil =>
    intro rest st st' h
    simp only [resp_stream_go] at h
    cases h
    rfl
  | cons line pr ih =>
    intro rest st st' h
    simp only [resp_stream_go, List.cons_append] at h ⊢
    cases hld : line_data_payload line with
    | none =>
      simp only [hld] at h ⊢
      exact ih rest st st' h
    | some data =>
      simp only [hld] at h ⊢
      by_cases hdone : data = "[DONE]"
      · simp only [if_pos hdone] at h; exact absurd h (by simp)
      · simp only [if_neg hdone] at h ⊢
        cases hp : parse data with
        | none => simp only [hp] at h; exact absurd h (by simp)
        | some ev =>
          simp only [hp] at h ⊢
          cases hev : process_resp_event st ev with
          | error e => simp only [hev] at h; exact absurd h (by simp)
          | ok out =>
            obtain ⟨st2, d⟩ := out
            cases d
            · simp only [hev] at h ⊢
              exact ih rest st2 st' h
            · simp only [hev] at h
              exact absurd h (by simp)

/-- The delta and empty-authoritative-completion events of the C2
counterexample stream, and its parse oracle. -/
def c2DeltaEvent : Json :=
  .obj [("type", .str "response.output_text.delta"), ("delta", .str "x")]

def c2EmptyResponsePayload : Json :=
  .obj [("output", .arr [.obj [("content",
    .arr [.obj [("type", .str "output_text"), ("text", .str "")]])]])]

def c2EmptyCompletedEvent : Json :=
  .obj [("type", .str "response.completed"), ("response", c2EmptyResponsePayload)]

def c2CexParse : String → Option Json := fun s =>
  if s = "D" then some c2DeltaEvent
  else if s = "C" then some c2EmptyCompletedEvent
  else none

def c2CexLines : List String := ["data: D", "data: C"]

/-- C2 counterexample: a stream delivering a delta "x" and then a
response.completed event whose authoritative output extracts to the empty
string yields content "x" (the delta fallback), not the authoritative
extraction "": authoritative content does not always win when both exist. -/
theorem c2_counterexample :
    (generate_openrouter_responses_streaming c2CexParse "m" c2CexLines).map
        (fun resp => resp.content) = .ok "x"
    ∧ extract_output_text_from_responses_payload c2EmptyResponsePayload = ""
    ∧ ("x" : String) ≠ "" :=
  ⟨rfl, rfl, by decide⟩

/-- C2 (amended): the completed-output extraction walks output[].content[]
entries of type output_text and concatenates their text fields (proved
against the claim-side extraction); a well-formed response.completed event
ends the stream (the lines after it do not influence the run); and when a
clean prefix is followed by a response.completed event carrying payload r,
the result content is the authoritative extraction of r whenever that
extraction is non-empty, and the concatenated delta fallback otherwise. -/
theorem c2_responses_stream_amended :
    (∀ p : Json, extract_output_text_from_responses_payload p = responses_output_text_spec p)
    ∧ (∀ (parse : String → Option Json) (line : String) (r : Json)
        (rest rest2 : List String) (st : RespState),
        line_completed_response parse line = some r →
        resp_stream_go parse (line :: rest) st = resp_stream_go parse (line :: rest2) st)
    ∧ (∀ (parse : String → Option Json) (model_name : String) (pre : List String)
        (line : String) (post : List String) (r : Json) (st : RespState),
        resp_stream_go parse pre {} = .ok ⟨st, false⟩ →
        line_completed_response parse line = some r →
        (generate_openrouter_responses_streaming parse model_name (pre ++ line :: post)).map
            (fun resp => resp.content)
          = .ok (if extract_output_text_from_responses_payload r = ""
                 then concatAll st.output_parts
                 else extract_output_text_from_responses_payload r)) := by
  refine ⟨extract_output_text_eq_spec, ?_, ?_⟩
  · intro parse line r rest rest2 st h
    rw [resp_stream_go_completed parse line r rest st h,
      resp_stream_go_completed parse line r rest2 st h]
  · intro parse model_name pre line post r st hpre hline
    unfold generate_openrouter_responses_streaming
    rw [resp_stream_go_append parse pre (line :: post) {} st hpre,
      resp_stream_go_completed parse line r post st hline]
    have hparts := (process_resp_response_obj_parts
      { st with meta := { st.meta with last_event_type := some "response.completed" } } r).1
    simp [resp_assemble_content, hparts, Except.map]

/-- The hello completion payload of the C2 witness. -/
def c2HelloResponsePayload : Json :=
  .obj [("output", .arr [.obj [("content",
    .arr [.obj [("type", .str "output_text"), ("text", .str "hello")]])]])]

def c2HelloCompletedEvent : Json :=
  .obj [("type", .str "response.completed"), ("response", c2HelloResponsePayload)]

def c2Parse : String → Option Json := fun s =>
  if s = "C" then some c2HelloCompletedEvent else none

/-- C2 witness: a responses stream consisting only of a response.completed
event carrying the hello output yields content "hello" even though no delta
events preceded it, via the amended theorem applied at the concrete stream. -/
theorem c2_witness :
    (generate_openrouter_responses_streaming c2Parse "m" ["data: C"]).map
        (fun resp => resp.content) = .ok "hello"
    ∧ line_completed_response c2Parse "data: C" = some c2HelloResponsePayload
    ∧ resp_stream_go c2Parse ([] : List String) {} = .ok ⟨{}, false⟩ :=
  ⟨(c2_responses_stream_amended.2.2 c2Parse "m" [] "data: C" []
      c2HelloResponsePayload {} rfl rfl).trans rfl,
   rfl, rfl⟩

/- ---------- C3 lemmas ---------- -/

def exceptIsOk {ε α : Type} : Except ε α → Bool
  | .ok _ => true
  | .error _ => false

lemma wfa_go_ok_find (t : Int) (events : List (Int × String)) :
    ∀ (r : Int) (line : String),
      wait_first_activity_go t r events = .ok line →
      (events.map Prod.snd).find? is_first_activity_line = some line := by
  induction events with
  | nil =>
    intro r line h
    unfold wait_first_activity_go at h
    split_ifs at h
  | cons ev rest ih =>
    intro r line h
    obtain ⟨w, l⟩ := ev
    unfold wait_first_activity_go at h
    split_ifs at h with h0 hw hq
    · rw [Except.ok.injEq] at h
      subst h
      rw [List.map_cons, List.find?_cons_of_pos _ hq]
    · rw [List.map_cons, List.find?_cons_of_neg _ hq]
      exact ih (r - w) line h

lemma wfa_go_error_timeout (t : Int) (events : List (Int × String)) :
    ∀ (r : Int) (e : FirstActivityErr),
      wait_first_activity_go t r events = .error e → e.timeout_sec = t := by
  induction events with
  | nil =>
    intro r e h
    unfold wait_first_activity_go at h
    split_ifs at h <;> (cases h; rfl)
  | cons ev rest ih =>
    intro r e h
    obtain ⟨w, l⟩ := ev
    unfold wait_first_activity_go at h
    split_ifs at h with h0 hw hq
    · cases h; rfl
    · cases h; rfl
    · exact ih (r - w) e h

lemma wfa_go_no_qualifying_error (t : Int) (events : List (Int × String)) :
    ∀ r : Int,
      (events.map Prod.snd).find? is_first_activity_line = none →
      exceptIsOk (wait_first_activity_go t r events) = false := by
  induction events with
  | nil =>
    intro r _
    unfold wait_first_activity_go
    split_ifs <;> rfl
  | cons ev rest ih =>
    intro r hfind
    obtain ⟨w, l⟩ := ev
    simp only [List.map, List.find?] at hfind
    cases hq : is_first_activity_line l with
    | true => rw [hq] at hfind; exact absurd hfind (by simp)
    | false =>
      rw [hq] at hfind
      unfold wait_first_activity_go
      split_ifs with h0 hw hq2
      · rfl
      · rfl
      · rw [hq] at hq2; exact absurd hq2 (by simp)
      · exact ih (r - w) hfind

lemma wfa_go_deadline_error (t : Int) (pre : List (Int × String)) :
    ∀ (r w : Int) (x : String) (post : List (Int × String)),
      (∀ p ∈ pre, is_first_activity_line p.2 = false) →
      (∀ p ∈ pre, 0 ≤ p.1) →
      0 ≤ w →
      r < (pre.map Prod.fst).sum + w →
      exceptIsOk (wait_first_activity_go t r (pre ++ (w, x) :: post)) = false := by
  induction pre with
  | nil =>
    intro r w x post _ _ hw hr
    simp only [List.map_nil, List.sum_nil, List.nil_append, zero_add] at hr ⊢
    unfold wait_first_activity_go
    split_ifs <;> rfl
  | cons ev pre' ih =>
    intro r w x post hq hwaits hw hr
    obtain ⟨w0, l0⟩ := ev
    simp only [List.map_cons, List.sum_cons, List.cons_append] at hr ⊢
    unfold wait_first_activity_go
    split_ifs with h0 hlt hq0
    · rfl
    · rfl
    · exact absurd hq0 (by simp [hq (w0, l0) (List.mem_cons_self _ _)])
    · refine ih (r - w0) w x post
        (fun p hp => hq p (List.mem_cons_of_mem _ hp))
        (fun p hp => hwaits p (List.mem_cons_of_mem _ hp)) hw ?_
      omega

/-- C3: (1) when the first-activity wait returns a line, it is the first
stream line that qualifies (starts with data: or is an OpenRouter
keep-alive comment, after stripping); (2) every timeout failure it raises
carries the configured first-activity timeout value (named twice in the
raised message); (3) when no line of the stream qualifies the wait fails;
(4) when the first qualifying line arrives only after the deadline has
passed (the waits before it plus its own wait exceed the timeout), the
wait fails. -/
theorem c3_first_activity_wait :
    (∀ (t : Int) (events : List (Int × String)) (line : String),
      wait_for_openrouter_first_activity_line t events = .ok line →
      (events.map Prod.snd).find? is_first_activity_line = some line)
    ∧ (∀ (t : Int) (events : List (Int × String)) (e : FirstActivityErr),
        wait_for_openrouter_first_activity_line t events = .error e →
        e.timeout_sec = t)
    ∧ (∀ (t : Int) (events : List (Int × String)),
        (events.map Prod.snd).find? is_first_activity_line = none →
        exceptIsOk (wait_for_openrouter_first_activity_line t events) = false)
    ∧ (∀ (t : Int) (pre : List (Int × String)) (w : Int) (x : String)
        (post : List (Int × String)),
        (∀ p ∈ pre, is_first_activity_line p.2 = false) →
        is_first_activity_line x = true →
        (∀ p ∈ pre, 0 ≤ p.1) →
        0 ≤ w →
        t < (pre.map Prod.fst).sum + w →
        exceptIsOk
          (wait_for_openrouter_first_activity_line t (pre ++ (w, x) :: post)) = false) := by
  refine ⟨?_, ?_, ?_, ?_⟩
  · intro t events line h
    exact wfa_go_ok_find t events t line h
  · intro t events e h
    exact wfa_go_error_timeout t events t e h
  · intro t events h
    exact wfa_go_no_qualifying_error t events t h
  · intro t pre w x post hq hx hwaits hw hr
    exact wfa_go_deadline_error t pre t w x post hq hwaits hw hr

/-- C3 witness: the theorem evaluated on concrete streams: a keep-alive
line is returned as first activity and is the first qualifying line; a
too-slow data line yields a failure carrying the configured 15s value; a
stream with no qualifying line fails; a qualifying line behind 16 seconds
of junk waits fails against a 15s deadline. -/
theorem c3_witness :
    ((([((1 : Int), ""), (2, ": OPENROUTER PROCESSING")]).map Prod.snd).find?
        is_first_activity_line = some ": OPENROUTER PROCESSING")
    ∧ (⟨15, .timedOut⟩ : FirstActivityErr).timeout_sec = 15
    ∧ exceptIsOk
        (wait_for_openrouter_first_activity_line 15 [((1 : Int), ": keepalive")]) = false
    ∧ exceptIsOk
        (wait_for_openrouter_first_activity_line 15
          ([((10 : Int), "junk")] ++ ((6 : Int), "data: x") :: [])) = false :=
  ⟨c3_first_activity_wait.1 15 [(1, ""), (2, ": OPENROUTER PROCESSING")]
      ": OPENROUTER PROCESSING" rfl,
   c3_first_activity_wait.2.1 15 [(20, "data: x")] ⟨15, .timedOut⟩ rfl,
   c3_first_activity_wait.2.2.1 15 [(1, ": keepalive")] rfl,
   c3_first_activity_wait.2.2.2 15 [(10, "junk")] 6 "data: x" []
     (by decide) (by decide) (by decide) (by decide) (by decide)⟩

/- ---------- C6 lemmas ---------- -/

/-- The memo cache agrees with the resolver: every cached entry is the
lowercased result of a successful, non-empty resolution. -/
def alias_cache_coherent (resolve : String → Option String)
    (cache : List (String × String)) : Prop :=
  ∀ k v, cacheLookup cache k = some v →
    ∃ res, resolve k = some res ∧ res ≠ "" ∧ strLower res = v

lemma cacheLookup_cacheSet (cache : List (String × String)) (k v k' : String) :
    cacheLookup (cacheSet cache k v) k' = if k = k' then some v else cacheLookup cache k' := by
  induction cache with
  | nil =>
    by_cases hk : k = k' <;> simp [cacheSet, cacheLookup, hk]
  | cons p rest ih =>
    obtain ⟨a, b⟩ := p
    by_cases hak : a = k
    · subst hak
      have hfil : cacheSet ((a, b) :: rest) a v = cacheSet rest a v := by
        simp [cacheSet, List.filter_cons]
      rw [hfil, ih]
      by_cases hk : a = k'
      · simp [hk]
      · simp [hk, cacheLookup]
    · have hfil : cacheSet ((a, b) :: rest) k v = (a, b) :: cacheSet rest k v := by
        simp [cacheSet, List.filter_cons, hak]
      rw [hfil]
      simp only [cacheLookup]
      by_cases hk2 : a = k'
      · rw [if_pos hk2, if_pos hk2]
        rw [if_neg (fun h : k = k' => hak (hk2.trans h.symm))]
      · rw [if_neg hk2, if_neg hk2, ih]

lemma alias_cache_coherent_cacheSet (resolve : String → Option String)
    (cache : List (String × String)) (k res : String)
    (hco : alias_cache_coherent resolve cache)
    (hres : resolve k = some res) (hne : res ≠ "") :
    alias_cache_coherent resolve (cacheSet cache k (strLower res)) := by
  intro k' v hv
  rw [cacheLookup_cacheSet] at hv
  split_ifs at hv with hk
  · subst hk
    cases hv
    exact ⟨res, hres, hne, rfl⟩
  · exact hco k' v hv

lemma allow_alias_loop_true_iff (resolve : String → Option String) (canonical : String) :
    ∀ (entries : List String) (cache : List (String × String)),
      alias_cache_coherent resolve cache →
      ((allow_alias_loop resolve canonical entries cache).1 = true ↔
        ∃ e ∈ entries, ∃ res, resolve e = some res ∧ res ≠ "" ∧ strLower res = canonical) := by
  intro entries
  induction entries with
  | nil =>
    intro cache _
    simp [allow_alias_loop]
  | cons e rest ih =>
    intro cache hco
    cases hcl : cacheLookup cache e with
    | some nr =>
      obtain ⟨res, hres, hne, hlow⟩ := hco e nr hcl
      unfold allow_alias_loop
      simp only [hcl]
      by_cases hnr : nr = canonical
      · rw [if_pos hnr]
        subst hnr
        constructor
        · intro _
          exact ⟨e, List.mem_cons_self _ _, res, hres, hne, hlow⟩
        · intro _
          rfl
      · rw [if_neg hnr]
        rw [ih cache hco]
        constructor
        · intro ⟨e2, he2, hr⟩
          exact ⟨e2, List.mem_cons_of_mem _ he2, hr⟩
        · intro ⟨e2, he2, res2, hres2, hne2, hlow2⟩
          rcases List.mem_cons.mp he2 with rfl | he2'
          · rw [hres] at hres2
            cases hres2
            exact absurd (hlow.symm.trans hlow2) hnr
          · exact ⟨e2, he2', res2, hres2, hne2, hlow2⟩
    | none =>
      cases hres : resolve e with
      | none =>
        unfold allow_alias_loop
        simp only [hcl, hres]
        rw [ih cache hco]
        constructor
        · intro ⟨e2, he2, hr⟩
          exact ⟨e2, List.mem_cons_of_mem _ he2, hr⟩
        · intro ⟨e2, he2, res2, hres2, hne2, hlow2⟩
          rcases List.mem_cons.mp he2 with rfl | he2'
          · rw [hres] at hres2; exact absurd hres2 (by simp)
          · exact ⟨e2, he2', res2, hres2, hne2, hlow2⟩
      | some res =>
        unfold allow_alias_loop
        simp only [hcl, hres]
        by_cases hempty : res = ""
        · rw [if_pos hempty]
          rw [ih cache hco]
          constructor
          · intro ⟨e2, he2, hr⟩
            exact ⟨e2, List.mem_cons_of_mem _ he2, hr⟩
          · intro ⟨e2, he2, res2, hres2, hne2, hlow2⟩
            rcases List.mem_cons.mp he2 with rfl | he2'
            · rw [hres] at hres2; cases hres2; exact absurd hempty (by simpa using hne2)
            · exact ⟨e2, he2', res2, hres2, hne2, hlow2⟩
        · rw [if_neg hempty]
          by_cases hnr : strLower res = canonical
          · rw [if_pos hnr]
            constructor
            · intro _
              exact ⟨e, List.mem_cons_self _ _, res, hres, hempty, hnr⟩
            · intro _
              rfl
          · rw [if_neg hnr]
            rw [ih (cacheSet cache e (strLower res))
              (alias_cache_coherent_cacheSet resolve cache e res hco hres hempty)]
            constructor
            · intro ⟨e2, he2, hr⟩
              exact ⟨e2, List.mem_cons_of_mem _ he2, hr⟩
            · intro ⟨e2, he2, res2, hres2, hne2, hlow2⟩
              rcases List.mem_cons.mp he2 with rfl | he2'
              · rw [hres] at hres2
                cases hres2
                exact absurd hlow2 hnr
              · exact ⟨e2, he2', res2, hres2, hne2, hlow2⟩

/-- C6: under a configured allow-list whose memo cache agrees with the
resolver, the check accepts exactly when the lowercased requested name or
lowercased canonical name is literally in the set, or some allow-list entry
alias-resolves (non-empty, lowercased) to the canonical name; every failure
names the requested model and the sorted allow-list; and an acceptance
obtained through alias resolution adds the canonical name into the
allow-list set and memoizes it, so later direct lookups short-circuit. -/
theorem c6_allow_list_check :
    ∀ (resolve : String → Option String) (st : AllowState)
      (canonical_name requested_name : String),
      alias_cache_coherent resolve st.alias_cache →
      (((ensure_model_allowed resolve st canonical_name requested_name).1 = .ok ()) ↔
        (st.allowed_models.contains (strLower requested_name) = true
          ∨ st.allowed_models.contains (strLower canonical_name) = true
          ∨ ∃ e ∈ st.allowed_models, ∃ res, resolve e = some res ∧ res ≠ ""
              ∧ strLower res = strLower canonical_name))
      ∧ (∀ err, (ensure_model_allowed resolve st canonical_name requested_name).1 = .error err →
          err = ⟨requested_name, sortedStrings st.allowed_models⟩)
      ∧ (st.allowed_models.contains (strLower requested_name) = false →
         st.allowed_models.contains (strLower canonical_name) = false →
         (∃ e ∈ st.allowed_models, ∃ res, resolve e = some res ∧ res ≠ ""
            ∧ strLower res = strLower canonical_name) →
         ((ensure_model_allowed resolve st canonical_name
              requested_name).2.allowed_models.contains (strLower canonical_name) = true
           ∧ cacheLookup (ensure_model_allowed resolve st canonical_name
                requested_name).2.alias_cache (strLower canonical_name)
             = some (strLower canonical_name))) := by
  intro resolve st canonical_name requested_name hco
  unfold ensure_model_allowed
  by_cases hdirect : st.allowed_models.contains (strLower requested_name) = true
      ∨ st.allowed_models.contains (strLower canonical_name) = true
  · rw [if_pos hdirect]
    refine ⟨?_, ?_, ?_⟩
    · constructor
      · intro _
        rcases hdirect with h | h
        · exact Or.inl h
        · exact Or.inr (Or.inl h)
      · intro _
        rfl
    · intro err herr
      exact absurd herr (by simp)
    · intro h1 h2 _
      rcases hdirect with h | h
      · rw [h1] at h; exact absurd h (by simp)
      · rw [h2] at h; exact absurd h (by simp)
  · rw [if_neg hdirect]
    have hloop := allow_alias_loop_true_iff resolve (strLower canonical_name)
      st.allowed_models st.alias_cache hco
    cases hl : allow_alias_loop resolve (strLower canonical_name)
        st.allowed_models st.alias_cache with
    | mk matched cache2 =>
      rw [hl] at hloop
      cases matched with
      | true =>
        refine ⟨?_, ?_, ?_⟩
        · constructor
          · intro _
            exact Or.inr (Or.inr (hloop.mp rfl))
          · intro _
            rfl
        · intro err herr
          exact absurd herr (by simp)
        · intro h1 h2 hexists
          constructor
          · have hnotmem : strLower canonical_name ∉ st.allowed_models := by
              simpa using h2
            simp [hnotmem]
          · show cacheLookup (cacheSet cache2 (strLower canonical_name)
                (strLower canonical_name)) (strLower canonical_name)
              = some (strLower canonical_name)
            rw [cacheLookup_cacheSet, if_pos rfl]
      | false =>
        have hnex : ¬ (∃ e ∈ st.allowed_models, ∃ res, resolve e = some res ∧ res ≠ ""
            ∧ strLower res = strLower canonical_name) := by
          intro hx
          exact absurd (hloop.mpr hx) (by simp)
        refine ⟨?_, ?_, ?_⟩
        · constructor
          · intro h
            exact absurd h (by simp)
          · intro h
            rcases h with h | h | h
            · exact absurd (Or.inl h) hdirect
            · exact absurd (Or.inr h) hdirect
            · exact absurd h hnex
        · intro err herr
          simp only [Except.error.injEq] at herr
          exact herr.symm
        · intro _ _ hexists
          exact absurd hexists hnex

/-- The concrete resolver of the C6 witness: the friendly alias resolves to
the canonical Vendor/Model id. -/
def c6Resolve : String → Option String := fun s =>
  if s = "friendly" then some "Vendor/Model" else none

def c6State : AllowState := ⟨["friendly"], []⟩

/-- C6 witness: with allow-list \x7b"friendly"\x7d and an empty memo cache, a
request whose canonical name vendor/model is alias-reachable from the
allow-list entry is accepted, the canonical name is added back into the set
and memoized, via the theorem applied at the concrete state. -/
theorem c6_witness :
    (ensure_model_allowed c6Resolve c6State "vendor/model" "Vendor/Model").1 = .ok ()
    ∧ (ensure_model_allowed c6Resolve c6State "vendor/model"
        "Vendor/Model").2.allowed_models.contains "vendor/model" = true
    ∧ cacheLookup (ensure_model_allowed c6Resolve c6State "vendor/model"
        "Vendor/Model").2.alias_cache "vendor/model" = some "vendor/model" :=
  have hco : alias_cache_coherent c6Resolve c6State.alias_cache := by
    intro k v hv
    simp [c6State, cacheLookup] at hv
  have hex : ∃ e ∈ c6State.allowed_models, ∃ res, c6Resolve e = some res ∧ res ≠ ""
      ∧ strLower res = strLower "vendor/model" := by
    refine ⟨"friendly", by simp [c6State], "Vendor/Model", rfl, by decide, rfl⟩
  have hmain := c6_allow_list_check c6Resolve c6State "vendor/model" "Vendor/Model" hco
  have hmemo := hmain.2.2 (by decide) (by decide) hex
  ⟨hmain.1.mpr (Or.inr (Or.inr hex)), hmemo.1, hmemo.2⟩

/-- C7: (1) a lookup while the cache is populated and within the 24-hour TTL
returns the cached index, leaves the state unchanged and performs no
network fetch; (2) during the 60-second cooldown after a recorded failure
(with no fresh cache available) the cache raises without fetching, the
dynamic model lookup returns nothing without fetching, and capability
resolution of a provider-prefixed model missing from the static registry
takes the generic-fallback path without fetching; (3) outside the cooldown
a failed fetch records the failure time and raises, having fetched. -/
theorem c7_catalog_cache_behavior :
    (∀ (now : Int) (fetch : Except Unit (List Json)) (st : CatalogCacheState)
        (cache : List (String × Json)) (last_fetch : Int),
      st.models_api_cache = some cache →
      st.models_api_last_fetch = some last_fetch →
      now - last_fetch < MODELS_API_TTL_SEC →
      get_models_api_cache now fetch st = (.ok cache, st, false))
    ∧ (∀ (now : Int) (fetch : Except Unit (List Json)) (st : CatalogCacheState) (lf : Int),
        (∀ (cache : List (String × Json)) (f : Int),
          st.models_api_cache = some cache → st.models_api_last_fetch = some f →
          MODELS_API_TTL_SEC ≤ now - f) →
        st.models_api_last_failure = some lf →
        now - lf < MODELS_API_FAILURE_COOLDOWN_SEC →
        get_models_api_cache now fetch st = (.error (), st, false)
        ∧ (∀ name, lookup_dynamic_model_info now fetch st name = (none, st, false))
        ∧ (∀ (registry : String → Option ModelCapabilities) (name : String),
            registry name = none →
            (rsplitColonBase name).toList.contains '/' = true →
            lookup_capabilities registry now fetch st name
              = (some (generic_openrouter_capabilities name), st, false)))
    ∧ (∀ (now : Int) (st : CatalogCacheState),
        (∀ (cache : List (String × Json)) (f : Int),
          st.models_api_cache = some cache → st.models_api_last_fetch = some f →
          MODELS_API_TTL_SEC ≤ now - f) →
        (∀ lf, st.models_api_last_failure = some lf →
          MODELS_API_FAILURE_COOLDOWN_SEC ≤ now - lf) →
        get_models_api_cache now (.error ()) st
          = (.error (), { st with models_api_last_failure := some now }, true)) := by
  refine ⟨?_, ?_, ?_⟩
  · intro now fetch st cache last_fetch h1 h2 h3
    simp [get_models_api_cache, h1, h2, h3]
  · intro now fetch st lf hstale hfail hlf
    have hget : get_models_api_cache now fetch st = (.error (), st, false) := by
      have hfetch : get_models_api_cache_fetch now fetch st = (.error (), st, false) := by
        simp [get_models_api_cache_fetch, hfail, hlf]
      cases hmc : st.models_api_cache with
      | none => simp [get_models_api_cache, hmc, hfetch]
      | some cache =>
        cases hmf : st.models_api_last_fetch with
        | none => simp [get_models_api_cache, hmc, hmf, hfetch]
        | some f =>
          have := hstale cache f hmc hmf
          simp [get_models_api_cache, hmc, hmf, hfetch, not_lt.mpr this]
    refine ⟨hget, ?_, ?_⟩
    · intro name
      simp [lookup_dynamic_model_info, hget]
    · intro registry name hreg hslash
      have hslash2 : '/' ∈ (rsplitColonBase name).data := by
        simpa [String.toList] using hslash
      simp [lookup_capabilities, hreg, hslash2, lookup_dynamic_model_info, hget]
  · intro now st hstale hcool
    have hfetch : get_models_api_cache_fetch now (.error ()) st
        = (.error (), { st with models_api_last_failure := some now }, true) := by
      cases hfail : st.models_api_last_failure with
      | none => simp [get_models_api_cache_fetch, hfail, get_models_api_cache_run]
      | some lf =>
        have := hcool lf hfail
        simp [get_models_api_cache_fetch, hfail, not_lt.mpr this, get_models_api_cache_run]
    cases hmc : st.models_api_cache with
    | none => simp [get_models_api_cache, hmc, hfetch]
    | some cache =>
      cases hmf : st.models_api_last_fetch with
      | none => simp [get_models_api_cache, hmc, hmf, hfetch]
      | some f =>
        have := hstale cache f hmc hmf
        simp [get_models_api_cache, hmc, hmf, hfetch, not_lt.mpr this]

/-- C7 witness: the theorem evaluated at concrete states: a fresh cache at
time 100 fetched at time 90 is served without fetching; at time 100 with a
failure recorded at 70 the cooldown is active, the dynamic lookup misses
and a prefixed model resolves to the generic record without fetching; at
time 200 the cooldown has lapsed and a failed fetch re-stamps the failure
time. -/
theorem c7_witness :
    get_models_api_cache 100 (.error ()) ⟨some [("vendor/model", .obj [])], some 90, none⟩
      = (.ok [("vendor/model", .obj [])], ⟨some [("vendor/model", .obj [])], some 90, none⟩, false)
    ∧ get_models_api_cache 100 (.error ()) ⟨none, none, some 70⟩
      = (.error (), ⟨none, none, some 70⟩, false)
    ∧ lookup_dynamic_model_info 100 (.error ()) ⟨none, none, some 70⟩ "vendor/model"
      = (none, ⟨none, none, some 70⟩, false)
    ∧ lookup_capabilities (fun _ => none) 100 (.error ()) ⟨none, none, some 70⟩ "vendor/model"
      = (some (generic_openrouter_capabilities "vendor/model"), ⟨none, none, some 70⟩, false)
    ∧ get_models_api_cache 200 (.error ()) ⟨none, none, some 70⟩
      = (.error (), ⟨none, none, some 200⟩, true) :=
  have h2 := c7_catalog_cache_behavior.2.1 100 (.error ()) ⟨none, none, some 70⟩ 70
    (fun _ _ h _ => by cases h) rfl (by decide)
  ⟨c7_catalog_cache_behavior.1 100 (.error ()) ⟨some [("vendor/model", .obj [])], some 90, none⟩
      [("vendor/model", .obj [])] 90 rfl rfl (by decide),
   h2.1,
   h2.2.1 "vendor/model",
   h2.2.2 (fun _ => none) "vendor/model" rfl (by decide),
   c7_catalog_cache_behavior.2.2 200 ⟨none, none, some 70⟩
     (fun _ _ h _ => by cases h) (fun lf hlf => by cases hlf; decide)⟩

/-- C8: capability lookup follows the resolution order: (1) a static
registry hit is returned as-is with no catalog consultation; (2) for
provider-prefixed identifiers missing from the registry, a catalog hit is
built into capabilities; (3) when the catalog misses or is unavailable, a
generic record with context window 32768, max output tokens 32768, no
function calling, no image support and the is_generic marker is returned;
(4) identifiers without a provider prefix that miss the registry report
not-found. -/
theorem c8_capability_resolution_order :
    (∀ (registry : String → Option ModelCapabilities) (now : Int)
        (fetch : Except Unit (List Json)) (st : CatalogCacheState)
        (name : String) (caps : ModelCapabilities),
      registry name = some caps →
      lookup_capabilities registry now fetch st name = (some caps, st, false))
    ∧ (∀ (registry : String → Option ModelCapabilities) (now : Int)
        (fetch : Except Unit (List Json)) (st : CatalogCacheState)
        (name : String) (info : Json) (st2 : CatalogCacheState) (fetched : Bool),
        registry name = none →
        (rsplitColonBase name).toList.contains '/' = true →
        lookup_dynamic_model_info now fetch st name = (some info, st2, fetched) →
        lookup_capabilities registry now fetch st name
          = (some (build_capabilities_from_models_api "OpenRouter" name info), st2, fetched))
    ∧ (∀ (registry : String → Option ModelCapabilities) (now : Int)
        (fetch : Except Unit (List Json)) (st : CatalogCacheState)
        (name : String) (st2 : CatalogCacheState) (fetched : Bool),
        registry name = none →
        (rsplitColonBase name).toList.contains '/' = true →
        lookup_dynamic_model_info now fetch st name = (none, st2, fetched) →
        lookup_capabilities registry now fetch st name
          = (some (generic_openrouter_capabilities name), st2, fetched)
        ∧ (generic_openrouter_capabilities name).context_window = 32768
        ∧ (generic_openrouter_capabilities name).max_output_tokens = 32768
        ∧ (generic_openrouter_capabilities name).supports_function_calling = false
        ∧ (generic_openrouter_capabilities name).supports_images = false
        ∧ (generic_openrouter_capabilities name).is_generic = true)
    ∧ (∀ (registry : String → Option ModelCapabilities) (now : Int)
        (fetch : Except Unit (List Json)) (st : CatalogCacheState) (name : String),
        registry name = none →
        (rsplitColonBase name).toList.contains '/' = false →
        lookup_capabilities registry now fetch st name = (none, st, false)) := by
  refine ⟨?_, ?_, ?_, ?_⟩
  · intro registry now fetch st name caps hreg
    simp [lookup_capabilities, hreg]
  · intro registry now fetch st name info st2 fetched hreg hslash hdyn
    have hslash2 : '/' ∈ (rsplitColonBase name).data := by
      simpa [String.toList] using hslash
    simp [lookup_capabilities, hreg, hslash2, hdyn]
  · intro registry now fetch st name st2 fetched hreg hslash hdyn
    have hslash2 : '/' ∈ (rsplitColonBase name).data := by
      simpa [String.toList] using hslash
    exact ⟨by simp [lookup_capabilities, hreg, hslash2, hdyn], rfl, rfl, rfl, rfl, rfl⟩
  · intro registry now fetch st name hreg hslash
    have hslash2 : ¬ '/' ∈ (rsplitColonBase name).data := by
      simpa [String.toList] using hslash
    simp [lookup_capabilities, hreg, hslash2]

/-- The static-registry oracle and catalog record of the C8 witness. -/
def c8Registry : String → Option ModelCapabilities := fun s =>
  if s = "known" then some (generic_openrouter_capabilities "known") else none

def c8CatalogRecord : Json := .obj [("id", .str "vendor/model"), ("context_length", .num 8000)]

def c8FreshState : CatalogCacheState := ⟨some [("vendor/model", c8CatalogRecord)], some 90, none⟩

def c8CooldownState : CatalogCacheState := ⟨none, none, some 70⟩

/-- C8 witness: the four resolution-order branches evaluated concretely: a
static hit is served untouched; a prefixed identifier present in the fresh
catalog is built from its record; a prefixed identifier during the cooldown
degrades to the generic record with the claimed field values; an
unprefixed unknown identifier reports not-found. -/
theorem c8_witness :
    lookup_capabilities c8Registry 100 (.error ()) c8CooldownState "known"
      = (some (generic_openrouter_capabilities "known"), c8CooldownState, false)
    ∧ lookup_capabilities c8Registry 100 (.error ()) c8FreshState "vendor/model"
      = (some (build_capabilities_from_models_api "OpenRouter" "vendor/model" c8CatalogRecord),
         c8FreshState, false)
    ∧ lookup_capabilities c8Registry 100 (.error ()) c8CooldownState "vendor/model"
      = (some (generic_openrouter_capabilities "vendor/model"), c8CooldownState, false)
    ∧ (generic_openrouter_capabilities "vendor/model").context_window = 32768
    ∧ (generic_openrouter_capabilities "vendor/model").is_generic = true
    ∧ lookup_capabilities c8Registry 100 (.error ()) c8CooldownState "plainname"
      = (none, c8CooldownState, false) :=
  have h3 := c8_capability_resolution_order.2.2.1 c8Registry 100 (.error ())
    c8CooldownState "vendor/model" c8CooldownState false rfl (by decide) rfl
  ⟨c8_capability_resolution_order.1 c8Registry 100 (.error ()) c8CooldownState "known"
      (generic_openrouter_capabilities "known") rfl,
   c8_capability_resolution_order.2.1 c8Registry 100 (.error ()) c8FreshState "vendor/model"
      c8CatalogRecord c8FreshState false rfl (by decide) rfl,
   h3.1, h3.2.1, h3.2.2.2.2.2,
   c8_capability_resolution_order.2.2.2 c8Registry 100 (.error ()) c8CooldownState
      "plainname" rfl (by decide)⟩
